import Mathlib

/-!
# Verification of the causallib evaluation core

Shallow embedding of `causallib/evaluation/metrics.py`,
`causallib/evaluation/weight_evaluator.py` and
`causallib/evaluation/results.py`.

Modelling conventions:
* `pd.Series` of floats is modelled as `List ℚ`, aligned by position
  (index alignment of pandas is not re-modelled; all vectors are assumed
  to share one index, as the spec's data-model invariant requires).
* `pd.DataFrame` is modelled by `DFrame` below: a list of column keys
  (each a tuple of labels, to support pandas MultiIndex columns) and a
  list of rows, each row being an index-label tuple plus a value list.
* Python exceptions are modelled with `Except String`; the error string
  begins with the exception class name.
* Metric callables (sklearn, out of scope per the spec) are opaque
  functions `MetricFn` that either return a value or fail with a
  `ValueError` (the only exception class the source catches).
* `warnings.warn` is modelled by returning the list of emitted warning
  messages alongside the result.
-/

/-- Values that can appear in a score table: a scalar, a NaN (recorded for
failed metrics), or a vector (curve-type metrics). -/
inductive Val where
  | num (q : ℚ)
  | nan
  | vec (l : List ℚ)
deriving DecidableEq, Repr

/-- `np.isscalar`: scalars and NaN (a float) are scalar, vectors are not. -/
def Val.isScalar : Val → Bool
  | .num _ => true
  | .nan => true
  | .vec _ => false

/-- Index / column labels of a pandas axis: strings, integers (e.g. fold
numbers and the `0` row of a transposed one-row frame) or floats
(treatment values). -/
inductive Label where
  | str (s : String)
  | nat (n : Nat)
  | rat (q : ℚ)
deriving DecidableEq, Repr

/-- A pandas DataFrame: column keys (tuples, to model MultiIndex columns),
rows (index-label tuple plus list of values, positionally parallel to
`cols`), and the names of the row-index levels. Column-axis level names are
not modelled. -/
structure DFrame (α : Type) where
  cols : List (List Label)
  rows : List (List Label × List α)
  idxNames : List (Option String)
deriving DecidableEq, Repr

/-- dtype of a pandas Series. -/
inductive Dtype where
  | float
  | obj
deriving DecidableEq, Repr

/-- A pandas Series keyed by metric name, as returned by the scoring
functions. -/
structure PSeries where
  entries : List (String × Val)
  dtype : Dtype
deriving DecidableEq, Repr

/-- A metric callable: receives true values, predictions and an optional
sample-weight vector; `.error` models raising `ValueError` (the only
exception class the scoring code catches). -/
abbrev MetricFn := List ℚ → List ℚ → Option (List ℚ) → Except String Val

/-- A metric dictionary (`metrics_to_evaluate`): insertion-ordered
name → callable mapping. -/
abbrev MetricDict := List (String × MetricFn)

/-- Covariate DataFrame `X`, stored column-major: (column name, column
values); all columns have one value per sample. -/
abbrev CovFrame := List (String × List ℚ)

/-- One cross-validation fold: (train indices, validation indices). -/
abbrev Fold := List Nat × List Nat

/-- Effectful map over a list in the `Except` monad, written by recursion so
that it mirrors a Python `for` loop: stops at the first raised exception. -/
def mapE {α β ε : Type} (f : α → Except ε β) : List α → Except ε (List β)
  | [] => .ok []
  | x :: xs => do
    let y ← f x
    let ys ← mapE f xs
    .ok (y :: ys)

@[simp] theorem mapE_nil {α β ε : Type} (f : α → Except ε β) :
    mapE f [] = .ok [] := rfl

@[simp] theorem mapE_cons {α β ε : Type} (f : α → Except ε β) (x : α) (xs : List α) :
    mapE f (x :: xs) = (do
      let y ← f x
      let ys ← mapE f xs
      Except.ok (y :: ys)) := rfl

@[simp] theorem exceptBind_ok {α β ε : Type} (a : α) (f : α → Except ε β) :
    (Except.ok a >>= f) = f a := rfl

@[simp] theorem exceptBind_error {α β ε : Type} (e : ε) (f : α → Except ε β) :
    ((Except.error e : Except ε α) >>= f) = Except.error e := rfl

theorem mapE_ok_of_forall {α β ε : Type} (f : α → Except ε β) (g : α → β) :
    ∀ (xs : List α), (∀ x ∈ xs, f x = .ok (g x)) → mapE f xs = .ok (xs.map g)
  | [], _ => rfl
  | x :: xs, h => by
    have hx := h x (List.mem_cons_self x xs)
    have hxs := mapE_ok_of_forall f g xs (fun y hy => h y (List.mem_cons_of_mem x hy))
    simp [mapE, hx, hxs]

theorem mapE_ok_length {α β ε : Type} (f : α → Except ε β) :
    ∀ (xs : List α) (ys : List β), mapE f xs = .ok ys → ys.length = xs.length := by
  intro xs
  induction xs with
  | nil => intro ys h; simp [mapE] at h; simp [← h]
  | cons x xs ih =>
    intro ys h
    simp only [mapE] at h
    cases hfx : f x with
    | error e => rw [hfx] at h; simp at h
    | ok y =>
      rw [hfx] at h
      cases hrest : mapE f xs with
      | error e => rw [hrest] at h; simp at h
      | ok ys' =>
        rw [hrest] at h
        simp [Except.ok.injEq] at h
        subst h
        simp [ih ys' hrest]

theorem mapE_ok_mem {α β ε : Type} (f : α → Except ε β) :
    ∀ (xs : List α) (ys : List β), mapE f xs = .ok ys →
      ∀ (i : Nat) (y : β), ys[i]? = some y → ∃ x, xs[i]? = some x ∧ f x = .ok y := by
  intro xs
  induction xs with
  | nil => intro ys h; simp [mapE] at h; subst h; intro i y hy; simp at hy
  | cons x xs ih =>
    intro ys h
    simp only [mapE] at h
    cases hfx : f x with
    | error e => rw [hfx] at h; simp at h
    | ok y0 =>
      rw [hfx] at h
      cases hrest : mapE f xs with
      | error e => rw [hrest] at h; simp at h
      | ok ys' =>
        rw [hrest] at h
        simp [Except.ok.injEq] at h
        subst h
        intro i y hy
        cases i with
        | zero => simp at hy; subst hy; exact ⟨x, by simp, hfx⟩
        | succ n =>
          simp at hy
          obtain ⟨x', hx', hfx'⟩ := ih ys' hrest n y hy
          exact ⟨x', by simpa using hx', hfx'⟩

/-- Short-circuiting `any` in the `Except` monad, mirroring Python's `any`
over a generator: stops at the first `True` or the first raised exception. -/
def anyE {α ε : Type} (f : α → Except ε Bool) : List α → Except ε Bool
  | [] => .ok false
  | x :: xs => do
    let b ← f x
    if b then .ok true else anyE f xs

/-- Insert-or-overwrite into an insertion-ordered dictionary (Python dict
assignment `d[k] = v`): an existing key keeps its position, a new key is
appended at the end. -/
def dictInsert {β : Type} (d : List (String × β)) (k : String) (v : β) : List (String × β) :=
  if d.any (fun e => e.1 = k) then
    d.map (fun e => if e.1 = k then (k, v) else e)
  else
    d ++ [(k, v)]

/-! ## Metric registries (metrics.py lines 44-76)

The sklearn metric callables themselves are external collaborators: the
spec (§1) "treats each metric as an opaque function with a fixed call
contract; substituting equivalent library calls in any target language
satisfies the contract". Only the registry *names* (which drive the
routing rule) and the call contract are modelled. -/

/-- Modelled from the spec: stand-in for an sklearn metric callable, which
is outside this repository (§1, §4.1: metrics are opaque functions with a
fixed call contract). -/
def externalMetric (_name : String) : MetricFn :=
  fun _yTrue _yPred _sw => Except.ok (Val.num 0)

def NUMERICAL_CLASSIFICATION_METRICS : MetricDict :=
  [("accuracy", externalMetric "accuracy_score"),
   ("precision", externalMetric "precision_score"),
   ("recall", externalMetric "recall_score"),
   ("f1", externalMetric "f1_score"),
   ("roc_auc", externalMetric "roc_auc_score"),
   ("avg_precision", externalMetric "average_precision_score"),
   ("hinge", externalMetric "hinge_loss"),
   ("matthews", externalMetric "matthews_corrcoef"),
   ("0_1", externalMetric "zero_one_loss"),
   ("brier", externalMetric "brier_score_loss")]

def NONNUMERICAL_CLASSIFICATION_METRICS : MetricDict :=
  [("confusion_matrix", externalMetric "confusion_matrix"),
   ("roc_curve", externalMetric "roc_curve"),
   ("pr_curve", externalMetric "precision_recall_curve")]

/-- `{**NUMERICAL_CLASSIFICATION_METRICS, **NONNUMERICAL_CLASSIFICATION_METRICS}`:
dict merge; the key sets are disjoint, so this is list append. -/
def CLASSIFICATION_METRICS : MetricDict :=
  NUMERICAL_CLASSIFICATION_METRICS ++ NONNUMERICAL_CLASSIFICATION_METRICS

def REGRESSION_METRICS : MetricDict :=
  [("expvar", externalMetric "explained_variance_score"),
   ("mae", externalMetric "mean_absolute_error"),
   ("mse", externalMetric "mean_squared_error"),
   ("msle", externalMetric "mean_squared_log_error"),
   -- mdae receives the sample_weight argument but ignores it (lambda wrapper):
   ("mdae", fun yTrue yPred _sw => externalMetric "median_absolute_error" yTrue yPred none),
   ("r2", externalMetric "r2_score")]

/-! ## Prediction scoring (metrics.py lines 132-224) -/

/-- The set of metric names that receive the continuous score
(`y_pred_proba`) rather than the discrete labels (metrics.py lines
166-173). -/
def probaMetricNames : List String :=
  ["hinge", "brier", "roc_curve", "roc_auc", "pr_curve", "avg_precision"]

/-- Which prediction input a metric receives: the continuous score for the
names in `probaMetricNames`, the discrete labels otherwise. -/
def routedInput (metricName : String) (yPredProba yPred : Option (List ℚ)) :
    Option (List ℚ) :=
  if metricName ∈ probaMetricNames then yPredProba else yPred

/-- Evaluate one metric under the try/except of metrics.py lines 181-188:
a `ValueError` is caught, two warnings are emitted
(`warnings.warn("metric {} could not be evaluated".format(...))` and
`warnings.warn(str(v))`) and NaN is recorded. -/
def evalBinaryMetric (metricName : String) (f : MetricFn) (yTrue pred : List ℚ)
    (sw : Option (List ℚ)) : Val × List String :=
  match f yTrue pred sw with
  | .ok v => (v, [])
  | .error v => (Val.nan, ["metric " ++ metricName ++ " could not be evaluated", v])

/-- The dtype computation of metrics.py lines 190-194: float when all
recorded scores are scalars, object otherwise. -/
def seriesDtype (entries : List (String × Val)) : Dtype :=
  if entries.all (fun e => e.2.isScalar) then Dtype.float else Dtype.obj

/-- The metric loop of `score_binary_prediction` (metrics.py lines
164-188): left-to-right accumulation of the `scores` dict and of the
emitted warnings, faithful to the Python `for` loop. -/
def scoreBinaryLoopGo (yTrue : List ℚ) (yPredProba yPred sw : Option (List ℚ))
    (acc : List (String × Val) × List String) :
    MetricDict → List (String × Val) × List String
  | [] => acc
  | (metricName, f) :: rest =>
    match routedInput metricName yPredProba yPred with
    | none => scoreBinaryLoopGo yTrue yPredProba yPred sw acc rest
    | some pred =>
      let r := evalBinaryMetric metricName f yTrue pred sw
      scoreBinaryLoopGo yTrue yPredProba yPred sw
        (dictInsert acc.1 metricName r.1, acc.2 ++ r.2) rest

/-- `score_binary_prediction` (metrics.py lines 132-195). Returns the
score Series together with the warnings emitted while scoring. -/
def score_binary_prediction (yTrue : List ℚ) (yPredProba yPred sw : Option (List ℚ))
    (metricsToEvaluate : Option MetricDict) (onlyNumericMetric : Bool) :
    PSeries × List String :=
  let m := match metricsToEvaluate with
    | some d => d
    | none =>
      if onlyNumericMetric then NUMERICAL_CLASSIFICATION_METRICS
      else CLASSIFICATION_METRICS
  let r := scoreBinaryLoopGo yTrue yPredProba yPred sw ([], []) m
  ({ entries := r.1, dtype := seriesDtype r.1 }, r.2)

/-- Evaluate one metric under the try/except of metrics.py lines 217-223:
a `ValueError` is caught, NaN is recorded and one warning
`"While evaluating " + metric_name + ": " + str(v)` is emitted. -/
def evalRegressionMetric (metricName : String) (f : MetricFn) (yTrue yPred : List ℚ)
    (sw : Option (List ℚ)) : Val × List String :=
  match f yTrue yPred sw with
  | .ok v => (v, [])
  | .error v => (Val.nan, ["While evaluating " ++ metricName ++ ": " ++ v])

/-- The metric loop of `score_regression_prediction` (metrics.py lines
216-223). -/
def scoreRegressionLoopGo (yTrue yPred : List ℚ) (sw : Option (List ℚ))
    (acc : List (String × Val) × List String) :
    MetricDict → List (String × Val) × List String
  | [] => acc
  | (metricName, f) :: rest =>
    let r := evalRegressionMetric metricName f yTrue yPred sw
    scoreRegressionLoopGo yTrue yPred sw (dictInsert acc.1 metricName r.1, acc.2 ++ r.2) rest

/-- `score_regression_prediction` (metrics.py lines 198-224). Note the
default is taken via Python's truthiness `or`: an *empty* supplied dict
also falls back to `REGRESSION_METRICS`. Returns the Series and the
emitted warnings. -/
def score_regression_prediction (yTrue yPred : List ℚ) (sw : Option (List ℚ))
    (metricsToEvaluate : Option MetricDict) : PSeries × List String :=
  let m := match metricsToEvaluate with
    | some [] => REGRESSION_METRICS
    | some d => d
    | none => REGRESSION_METRICS
  let r := scoreRegressionLoopGo yTrue yPred sw ([], []) m
  ({ entries := r.1, dtype := seriesDtype r.1 }, r.2)

/-! ## DataFrame concatenation (`pd.concat` along the row axis with `keys`
and `names`, as used by `_combine_fold_scores`, metrics.py lines 227-249) -/

/-- Union of column-key lists in order of first appearance (the alignment
`pd.concat` performs when the frames' columns differ). -/
def colUnion (colLists : List (List (List Label))) : List (List Label) :=
  colLists.foldl (fun acc cs => acc ++ cs.filter (fun c => ¬ c ∈ acc)) []

/-- Re-express one row, given under `oldCols`, under the aligned column
list `newCols`; columns absent from `oldCols` are filled with `nan`
(pandas fills NaN when aligning). -/
def realignRow {α : Type} (oldCols newCols : List (List Label)) (nanV : α)
    (vals : List α) : List α :=
  newCols.map (fun c =>
    match oldCols.indexOf? c with
    | some j => vals.getD j nanV
    | none => nanV)

/-- `pd.concat(frames, axis="index", keys=..., names=[name])`: label each
frame's rows with its key as a new outermost index level and stack the
rows; raises `ValueError` on an empty collection. The result's index-level
names are the given name followed by the first frame's index names (the
frames are assumed name-compatible, as in the source's usage). -/
def concatWithKeys {α : Type} (name : Option String) (nanV : α)
    (entries : List (Label × DFrame α)) : Except String (DFrame α) :=
  match entries with
  | [] => .error "ValueError: No objects to concatenate"
  | e :: es =>
    .ok { cols := colUnion ((e :: es).map (fun p => p.2.cols)),
          rows := (e :: es).flatMap (fun p =>
            p.2.rows.map (fun r => (p.1 :: r.1,
              realignRow p.2.cols (colUnion ((e :: es).map (fun q => q.2.cols))) nanV r.2))),
          idxNames := name :: e.2.idxNames }

/-- `_combine_fold_scores` (metrics.py lines 227-249), generic in the cell
type: per phase, concatenate the fold frames with `keys=range(len(...))`
and `names=["fold"]`; then concatenate the per-phase frames (a dict, in
insertion order) with `names=["phase"]`. -/
def combineFoldScores {α : Type} (nanV : α)
    (scores : List (String × List (DFrame α))) : Except String (DFrame α) := do
  let perPhase ← mapE (fun p => do
      let c ← concatWithKeys (some "fold") nanV
        (p.2.enum.map (fun q => (Label.nat q.1, q.2)))
      Except.ok (Label.str p.1, c)) scores
  concatWithKeys (some "phase") nanV perPhase

/-- `_combine_fold_scores` at the type it is applied to in the source:
score tables with `Val` cells. -/
def combine_fold_scores (scores : List (String × List (DFrame Val))) :
    Except String (DFrame Val) :=
  combineFoldScores Val.nan scores

/-! ## Covariate balance (metrics.py lines 273-359)

The two weighted distance functions live in `causallib/utils/stat_utils.py`,
which is not under src/; they are modelled from the spec (§2, §4.1). -/

/-- Weighted mean `np.average(x, weights=w)` (division by a zero total
weight is the Lean convention `q / 0 = 0`). -/
def wmean (x w : List ℚ) : ℚ :=
  ((x.zip w).map (fun p => p.1 * p.2)).sum / w.sum

/-- Population variance of a sample (used to standardize the mean
difference). -/
def pvar (x : List ℚ) : ℚ :=
  (x.map (fun v => v * v)).sum / x.length - (x.sum / x.length) ^ 2

/-- Modelled from the spec: `calc_weighted_standardized_mean_differences`
of `causallib.utils.stat_utils` is not under src/. Per §2/§4.1 it is the
weighted standardized mean difference: difference of the two weighted
means, standardized by the pooled spread of the two samples. -/
noncomputable def calc_weighted_standardized_mean_differences (x y wx wy : List ℚ) : ℝ :=
  ((wmean x wx - wmean y wy : ℚ) : ℝ) / Real.sqrt ((pvar x + pvar y : ℚ) : ℝ)

/-- Weighted empirical CDF of the sample `x` with weights `w` at threshold
`t`. -/
def wecdf (x w : List ℚ) (t : ℚ) : ℚ :=
  (((x.zip w).filter (fun p => p.1 ≤ t)).map (fun p => p.2)).sum / w.sum

/-- Modelled from the spec: `calc_weighted_ks2samp` of
`causallib.utils.stat_utils` is not under src/. Per §2/§4.1 it is the
weighted two-sample Kolmogorov-Smirnov statistic: the largest absolute
difference of the two weighted empirical CDFs over the pooled sample. -/
def calc_weighted_ks2samp (x y wx wy : List ℚ) : ℚ :=
  (((x ++ y).map (fun t => |wecdf x wx t - wecdf y wy t|)).foldr max 0)

/-- A weighted two-sample distance callable
`(sample_a, sample_b, weights_a, weights_b) → scalar`. -/
abbrev DistFn := List ℚ → List ℚ → List ℚ → List ℚ → ℝ

/-- `DISTRIBUTION_DISTANCE_METRICS` (metrics.py lines 278-286). -/
noncomputable def DISTRIBUTION_DISTANCE_METRICS : List (String × DistFn) :=
  [("smd", fun x y wx wy => calc_weighted_standardized_mean_differences x y wx wy),
   ("abs_smd", fun x y wx wy => |calc_weighted_standardized_mean_differences x y wx wy|),
   ("ks", fun x y wx wy => ((calc_weighted_ks2samp x y wx wy : ℚ) : ℝ))]

/-- The `metric` argument of the balance functions: either a key of
`DISTRIBUTION_DISTANCE_METRICS` or a caller-supplied callable. -/
inductive MetricArg where
  | key (s : String)
  | fn (f : DistFn)

/-- `if not callable(metric): metric = DISTRIBUTION_DISTANCE_METRICS[metric]`
(metrics.py lines 351-352); a missing key raises `KeyError`. -/
noncomputable def resolveMetric : MetricArg → Except String DistFn
  | .fn f => .ok f
  | .key s =>
    match (DISTRIBUTION_DISTANCE_METRICS.find? (fun p => p.1 = s)) with
    | some p => .ok p.2
    | none => .error ("KeyError: " ++ s)

/-- Select the elements of `l` whose corresponding mask entry is `b`
(`series.loc[mask]` / `series.loc[~mask]`, position-aligned). -/
def maskFilter {α : Type} (l : List α) (mask : List Bool) (b : Bool) : List α :=
  ((l.zip mask).filter (fun p => p.2 = b)).map (fun p => p.1)

/-- `calculate_distribution_distance_for_single_feature` (metrics.py lines
334-359): partition the feature `x` (and the weights `w`) into the samples
assigned to `group_level` and the rest, and apply the distance metric. -/
noncomputable def calculate_distribution_distance_for_single_feature (x w a : List ℚ)
    (group_level : ℚ) (metric : MetricArg) : Except String ℝ := do
  let f ← resolveMetric metric
  let mask := a.map (fun v => decide (v = group_level))
  let xTreated := maskFilter x mask true
  let wTreated := maskFilter w mask true
  let xUntreated := maskFilter x mask false
  let wUntreated := maskFilter w mask false
  Except.ok (f xTreated xUntreated wTreated wUntreated)

/-- `np.sort(np.unique(a))`: the distinct values of `a` in increasing
order, built by sorted insertion without duplicates. -/
def insertSorted (v : ℚ) : List ℚ → List ℚ
  | [] => [v]
  | x :: xs =>
    if v = x then x :: xs
    else if v < x then v :: x :: xs
    else x :: insertSorted v xs

def uniqueSorted (l : List ℚ) : List ℚ :=
  l.foldr insertSorted []

/-- The inner loop of `calculate_covariate_balance` for one treatment
value (metrics.py lines 307-319): for every covariate column, the weighted
and the unweighted (all weights 1) distance. -/
noncomputable def perLevelTable (X : CovFrame) (a w : List ℚ) (tv : ℚ) (metric : MetricArg) :
    Except String (List (String × ℝ × ℝ)) :=
  mapE (fun col => do
    let wd ← calculate_distribution_distance_for_single_feature col.2 w a tv metric
    let ud ← calculate_distribution_distance_for_single_feature col.2
      (List.replicate w.length 1) a tv metric
    Except.ok (col.1, wd, ud)) X

/-- `df.xs(key, axis="columns", level=0)`: keep the columns whose
outermost label equals `key`, dropping that label level (used at
metrics.py line 329). -/
def xsCols {α : Type} (df : DFrame α) (key : Label) : DFrame α :=
  { cols := (df.cols.filter (fun c => c.head? = some key)).map (fun c => c.tail),
    rows := df.rows.map (fun r =>
      (r.1, ((r.2.zip df.cols).filter (fun p => p.2.head? = some key)).map (fun p => p.1))),
    idxNames := df.idxNames }

/-- Assemble the per-level tables into the column-concatenated frame
`pd.concat(results, axis="columns", names=[...])` of metrics.py lines
321-324: row index = covariate names (named "covariate"), column
MultiIndex = (treatment value, weighted/unweighted). Column-axis level
names (`a.name or "a"` and the metric name) are not modelled. -/
def assembleBalanceFrame (covNames : List String)
    (results : List (ℚ × List (String × ℝ × ℝ))) : DFrame (Option ℝ) :=
  { cols := results.flatMap (fun p =>
      [[Label.rat p.1, Label.str "weighted"], [Label.rat p.1, Label.str "unweighted"]]),
    rows := covNames.enum.map (fun q =>
      ([Label.str q.2], results.flatMap (fun p =>
        match p.2[q.1]? with
        | some e => [some e.2.1, some e.2.2]
        | none => []))),
    idxNames := [some "covariate"] }

/-- `calculate_covariate_balance` (metrics.py lines 289-331). When exactly
two treatment values exist, only the table keyed under the maximal value
is kept (`results.xs(treatment_values.max(), axis="columns", level=0)`). -/
noncomputable def calculate_covariate_balance (X : CovFrame) (a w : List ℚ) (metric : MetricArg) :
    Except String (DFrame (Option ℝ)) := do
  let treatment_values := uniqueSorted a
  let results ← mapE (fun tv => do
      let tbl ← perLevelTable X a w tv metric
      Except.ok (tv, tbl)) treatment_values
  let frame := assembleBalanceFrame (X.map (fun c => c.1)) results
  if treatment_values.length = 2 then
    Except.ok (xsCols frame (Label.rat (treatment_values.getLastD 0)))
  else
    Except.ok frame

/-! ## Prediction bundles (weight_evaluator.py; outcome_evaluator.py is not
under src/ and is modelled from the spec §4.4) -/

/-- `WeightEvaluatorScores` (metrics.py lines 11-13) together with the
plain-DataFrame alternative: the value `score_estimation` / `score_cv`
produce. `table` is a bare `pd.DataFrame`; `weightScores` is the
namedtuple `(prediction_scores, covariate_balance)`. -/
inductive ScoreResult where
  | table (t : DFrame Val)
  | weightScores (prediction_scores : DFrame Val) (covariate_balance : DFrame (Option ℝ))

/-- Whether a `ScoreResult` is the paired `WeightEvaluatorScores` form. -/
def ScoreResult.isPaired : ScoreResult → Bool
  | .table _ => false
  | .weightScores _ _ => true

/-- `pd.DataFrame(series).T`: reshape a Series into a one-row DataFrame
whose columns are the Series index and whose single row is labeled `0`
(weight_evaluator.py line 72). The subsequent
`apply(pd.to_numeric, errors="ignore")` only adjusts column dtypes, which
this value representation does not carry, so it is the identity here. -/
def seriesToRow (s : PSeries) : DFrame Val :=
  { cols := s.entries.map (fun e => [Label.str e.1]),
    rows := [([Label.nat 0], s.entries.map (fun e => e.2))],
    idxNames := [none] }

/-- `WeightEvaluatorPredictions` (weight_evaluator.py lines 36-42). -/
structure WeightEvaluatorPredictions where
  weight_by_treatment_assignment : List ℚ
  weight_for_being_treated : List ℚ
  treatment_assignment_pred : List ℚ
deriving DecidableEq

/-- `WeightEvaluatorPredictions.calculate_metrics` (weight_evaluator.py
lines 44-79): score the treatment-assignment prediction as a binary
prediction (weight-for-treated as the continuous score, predicted
assignment as the labels), reshape into a one-row table, and compute the
covariate-balance table with weight-by-assignment as the weights.
`Scorer.score_binary_prediction` is imported from `.metrics`; the `Scorer`
wrapper class is not under src/, and per spec §4.2 it is the module-level
`score_binary_prediction`. The warning side-channel is dropped, as Python
warnings go to a side channel. -/
noncomputable def WeightEvaluatorPredictions.calculate_metrics
    (p : WeightEvaluatorPredictions) (X : CovFrame) (aTrue : List ℚ)
    (metricsToEvaluate : Option MetricDict) : Except String ScoreResult := do
  let prediction_scores :=
    (score_binary_prediction aTrue (some p.weight_for_being_treated)
      (some p.treatment_assignment_pred) none metricsToEvaluate true).1
  let prediction_scores := seriesToRow prediction_scores
  let covariate_balance ←
    calculate_covariate_balance X aTrue p.weight_by_treatment_assignment
      (MetricArg.key "abs_smd")
  Except.ok (ScoreResult.weightScores prediction_scores covariate_balance)

/-- `PropensityEvaluatorPredictions` (weight_evaluator.py lines 171-180):
extends the weight predictions with the propensity diagnostics; it
inherits `calculate_metrics` unchanged. -/
structure PropensityEvaluatorPredictions extends WeightEvaluatorPredictions where
  propensity : List ℚ
  propensity_by_treatment_assignment : List ℚ
deriving DecidableEq

/-- Modelled from the spec: `OutcomeEvaluatorPredictions`
(`outcome_evaluator.py`) is not under src/. Per spec §3/§4.4 it holds,
per treatment arm, the predicted outcome vector, plus a flag marking
whether the outcome is binary. -/
structure OutcomeEvaluatorPredictions where
  prediction : List (ℚ × List ℚ)
  is_binary_outcome : Bool
deriving DecidableEq

/-- Modelled from the spec (§4.4): the "factual" lookup — for sample `i`
with assignment `a_i`, take arm `a_i`'s prediction at `i`. A missing arm
raises `KeyError`; a too-short arm vector raises `IndexError`. -/
def factualPrediction (prediction : List (ℚ × List ℚ)) (a : List ℚ) :
    Except String (List ℚ) :=
  mapE (fun q =>
    match prediction.find? (fun arm => arm.1 = q.2) with
    | none => .error "KeyError: treatment arm not predicted"
    | some arm =>
      match arm.2[q.1]? with
      | none => .error "IndexError: prediction vector too short"
      | some v => .ok v) a.enum

/-- Modelled from the spec (§4.4): `OutcomeEvaluatorPredictions.
calculate_metrics(true_assignment, true_outcome, metric_set)` selects the
factual prediction and scores it against the true outcome with
`score_regression_prediction` or `score_binary_prediction` according to
the binary flag, as a one-row score table (§3 ScoreTable). For the binary
case the factual prediction vector is passed as both the continuous and
the label input, the spec not distinguishing them for outcomes. -/
def OutcomeEvaluatorPredictions.calculate_metrics
    (o : OutcomeEvaluatorPredictions) (aTrue yTrue : List ℚ)
    (metricsToEvaluate : Option MetricDict) : Except String ScoreResult := do
  let yPred ← factualPrediction o.prediction aTrue
  let s :=
    if o.is_binary_outcome then
      (score_binary_prediction yTrue (some yPred) (some yPred) none metricsToEvaluate true).1
    else
      (score_regression_prediction yTrue yPred none metricsToEvaluate).1
  Except.ok (ScoreResult.table (seriesToRow s))

/-- The opaque per-fold prediction object dispatched on by
`score_estimation`; `other` models any object of an unrecognized type
(e.g. `WeightEvaluatorPredictions2`), carrying the name `type(...)`
renders to. -/
inductive SingleFoldPrediction where
  | outcome (o : OutcomeEvaluatorPredictions)
  | weight (w : WeightEvaluatorPredictions)
  | propensity (p : PropensityEvaluatorPredictions)
  | other (typeName : String)
deriving DecidableEq

/-- `score_estimation` (metrics.py lines 252-270): dispatch on the runtime
type of the prediction bundle; outcome predictions are scored against
the outcome, weight/propensity predictions (same interface) against the
covariates and treatment assignment; any other type raises `ValueError`
naming the offending type (the message reproduces the source's spelling). -/
noncomputable def score_estimation (prediction : SingleFoldPrediction) (X : CovFrame)
    (aTrue yTrue : List ℚ) (metricsToEvaluate : Option MetricDict) :
    Except String ScoreResult :=
  match prediction with
  | .outcome o => o.calculate_metrics aTrue yTrue metricsToEvaluate
  | .weight w => w.calculate_metrics X aTrue metricsToEvaluate
  | .propensity p => p.toWeightEvaluatorPredictions.calculate_metrics X aTrue metricsToEvaluate
  | .other typeName => .error ("ValueError: Invalid type for prediciton: " ++ typeName)

/-! ## Cross-validation scoring (`score_cv`, metrics.py lines 79-129) -/

/-- `series.iloc[idx]` for a list of positional indices; an out-of-range
position raises `IndexError`. -/
def iloc {α : Type} (l : List α) (idx : List Nat) : Except String (List α) :=
  mapE (fun i =>
    match l[i]? with
    | some v => .ok v
    | none => .error "IndexError: positional indexer out-of-bounds") idx

/-- `X.iloc[idx]` on the column-major covariate frame: slice every column. -/
def ilocF (X : CovFrame) (idx : List Nat) : Except String CovFrame :=
  mapE (fun col => do
    let v ← iloc col.2 idx
    Except.ok (col.1, v)) X

/-- The `data` dict of metrics.py lines 100-111: both the train and the
valid slice of `(X, a, y)` are computed up-front for each fold. -/
def sliceAll (X : CovFrame) (a y : List ℚ) (fold : Fold) :
    Except String ((CovFrame × List ℚ × List ℚ) × (CovFrame × List ℚ × List ℚ)) := do
  let Xtr ← ilocF X fold.1
  let atr ← iloc a fold.1
  let ytr ← iloc y fold.1
  let Xva ← ilocF X fold.2
  let ava ← iloc a fold.2
  let yva ← iloc y fold.2
  Except.ok ((Xtr, atr, ytr), (Xva, ava, yva))

/-- `data[phase]`: a phase other than "train"/"valid" raises `KeyError`
(the `data` dict has exactly those two keys). -/
def phaseData {α : Type} (train valid : α) (phase : String) : Except String α :=
  if phase = "train" then .ok train
  else if phase = "valid" then .ok valid
  else .error ("KeyError: " ++ phase)

/-- `predictions[phase][i]` (metrics.py line 120): a missing phase key
raises `KeyError`, a too-short fold list raises `IndexError`. -/
def fetchPrediction (predictions : List (String × List SingleFoldPrediction))
    (phase : String) (i : Nat) : Except String SingleFoldPrediction :=
  match predictions.find? (fun p => p.1 = phase) with
  | none => .error ("KeyError: " ++ phase)
  | some p =>
    match p.2[i]? with
    | some pr => .ok pr
    | none => .error "IndexError: list index out of range"

/-- The body of the phase loop of `score_cv` (metrics.py lines 114-125)
for fold number `i`: look up the phase's slice of the fold data, fetch
`predictions[phase][i]` and score it. -/
noncomputable def scoreFoldPhase (predictions : List (String × List SingleFoldPrediction))
    (X : CovFrame) (a y : List ℚ) (metricsToEvaluate : Option MetricDict)
    (i : Nat) (fold : Fold) (phase : String) : Except String ScoreResult := do
  let data ← sliceAll X a y fold
  let slice ← phaseData data.1 data.2 phase
  let prediction ← fetchPrediction predictions phase i
  score_estimation prediction slice.1 slice.2.1 slice.2.2 metricsToEvaluate

/-- One fold iteration of `score_cv`: the `data` dict is built first
(slicing both phases, metrics.py lines 100-111), then every phase of
`predictions.keys()` is scored. -/
noncomputable def scoreFold (predictions : List (String × List SingleFoldPrediction))
    (X : CovFrame) (a y : List ℚ) (metricsToEvaluate : Option MetricDict)
    (phases : List String) (i : Nat) (fold : Fold) :
    Except String (List (String × ScoreResult)) := do
  let _ ← sliceAll X a y fold
  mapE (fun phase => do
    let fs ← scoreFoldPhase predictions X a y metricsToEvaluate i fold phase
    Except.ok (phase, fs)) phases

/-- Coerce the per-fold results to bare score tables for
`_combine_fold_scores`; `pd.concat` cannot concatenate the
`WeightEvaluatorScores` namedtuple with DataFrames. -/
def asTable : ScoreResult → Except String (DFrame Val)
  | .table t => .ok t
  | .weightScores _ _ => .error "TypeError: cannot concatenate WeightEvaluatorScores"

/-- `fold_score.prediction_scores` / `.covariate_balance`: accessing the
namedtuple fields of a plain DataFrame raises `AttributeError`. -/
def asWeightScores : ScoreResult → Except String (DFrame Val × DFrame (Option ℝ))
  | .weightScores p b => .ok (p, b)
  | .table _ => .error "AttributeError: 'DataFrame' object has no attribute 'prediction_scores'"

/-- `_combine_fold_scores` applied to the per-phase collections of
`score_cv` results (the plain-DataFrame path of metrics.py line 129). -/
def combineTables (scores : List (String × List ScoreResult)) :
    Except String ScoreResult := do
  let dfs ← mapE (fun p => do
      let ts ← mapE asTable p.2
      Except.ok (p.1, ts)) scores
  let c ← combine_fold_scores dfs
  Except.ok (ScoreResult.table c)

/-- `_combine_weight_evaluator_fold_scores` (metrics.py lines 16-41):
extract the two namedtuple components phase-by-phase, combine each with
`_combine_fold_scores`, and rebuild a `WeightEvaluatorScores`. -/
def combineWeightScores (scores : List (String × List ScoreResult)) :
    Except String ScoreResult := do
  let predParts ← mapE (fun p => do
      let ws ← mapE asWeightScores p.2
      Except.ok (p.1, ws.map (fun w => w.1))) scores
  let prediction_scores ← combineFoldScores Val.nan predParts
  let balParts ← mapE (fun p => do
      let ws ← mapE asWeightScores p.2
      Except.ok (p.1, ws.map (fun w => w.2))) scores
  let covariate_balance ← combineFoldScores none balParts
  Except.ok (ScoreResult.weightScores prediction_scores covariate_balance)

/-- `score_cv` (metrics.py lines 79-129). The folds are processed in
order; within a fold, the phases in `predictions.keys()` order. After the
loop, the *loop variable* `fold_scores` (the score of the last phase of
the last fold) decides by `isinstance` which aggregation runs; when the
loop never bound it (no folds, or no phases), Python raises `NameError`. -/
noncomputable def score_cv (predictions : List (String × List SingleFoldPrediction))
    (X : CovFrame) (a y : List ℚ) (cv : List Fold)
    (metricsToEvaluate : Option MetricDict) : Except String ScoreResult := do
  let phases := predictions.map (fun p => p.1)
  let foldResults ← mapE (fun q => scoreFold predictions X a y metricsToEvaluate phases q.1 q.2)
    cv.enum
  match foldResults.getLast? >>= List.getLast? with
  | none => .error "NameError: name 'fold_scores' is not defined"
  | some last =>
    let scores := phases.enum.map (fun q =>
      (q.2, foldResults.filterMap (fun fr => (fr[q.1]?).map (fun e => e.2))))
    match last.2 with
    | .weightScores _ _ => combineWeightScores scores
    | .table _ => combineTables scores

/-! ## Result-variant selection (`EvaluationResults.make`, results.py
lines 60-101)

The estimator classes (`PropensityEstimator`, `WeightEstimator`,
`IndividualOutcomeEstimator`, `causallib.estimation`) are not under src/;
they are opaque fitted models here, modelled as a closed tag plus an
`other` tag for any unrecognized type. `PropensityEstimator` subclasses
`WeightEstimator`, so the source checks `isinstance(.., Propensity..)`
first; with distinct tags the same dispatch order is kept. -/

inductive EstimatorModel where
  | propensity
  | weight
  | outcome
  | other (typeName : String)
deriving DecidableEq

/-- The `models` argument of `make`: a by-phase dict of fitted models, a
by-fold list, or a single model. -/
inductive ModelsArg where
  | dict (entries : List (String × List EstimatorModel))
  | list (l : List EstimatorModel)
  | single (e : EstimatorModel)
deriving DecidableEq

/-- `models["train"][0]` / `models[0]` / `models` (results.py lines
74-79): unwrap the container to the first fitted model. A missing "train"
key raises `KeyError`, an empty list `IndexError`. -/
def unwrapModels : ModelsArg → Except String EstimatorModel
  | .dict entries =>
    match entries.find? (fun p => p.1 = "train") with
    | none => .error "KeyError: train"
    | some p =>
      match p.2.head? with
      | none => .error "IndexError: list index out of range"
      | some e => .ok e
  | .list l =>
    match l.head? with
    | none => .error "IndexError: list index out of range"
    | some e => .ok e
  | .single e => .ok e

/-- `y.is_binary_outcome` on a per-fold prediction object: only outcome
predictions carry the attribute; on the others Python raises
`AttributeError`. -/
def SingleFoldPrediction.is_binary_outcome : SingleFoldPrediction → Option Bool
  | .outcome o => some o.is_binary_outcome
  | _ => none

/-- `any(x and any(y.is_binary_outcome for y in x) for x in
predictions.values())` (results.py lines 90-92): an empty fold list is
falsy and short-circuits the inner `any`; both `any`s stop at the first
truthy value. -/
def anyBinaryOutcome (predictions : List (String × List SingleFoldPrediction)) :
    Except String Bool :=
  anyE (fun x =>
    match x.2 with
    | [] => .ok false
    | l => anyE (fun y =>
        match y.is_binary_outcome with
        | some b => .ok b
        | none => .error "AttributeError: object has no attribute 'is_binary_outcome'") l)
    predictions

/-- The argument bundle of `EvaluationResults` (results.py lines 40-50):
evaluated metrics (a DataFrame or a `WeightEvaluatorScores`), the fitted
models, the by-phase predictions, the cv folds and the raw data. -/
structure EvalArgs where
  evaluated_metrics : ScoreResult
  models : ModelsArg
  predictions : List (String × List SingleFoldPrediction)
  cv : List Fold
  X : CovFrame
  a : List ℚ
  y : List ℚ

/-- The four concrete result variants returned by `make` (results.py
lines 125-172), each holding the dataclass fields. -/
inductive EvaluationResults where
  | propensityResults (args : EvalArgs)
  | weightResults (args : EvalArgs)
  | binaryOutcomeResults (args : EvalArgs)
  | continuousOutcomeResults (args : EvalArgs)

/-- `EvaluationResults.make` (results.py lines 60-101): unwrap the models
container, dispatch on the type of the first fitted model; for an
individual-outcome estimator the binary variant is chosen iff any fold's
predictions in any phase are flagged binary; an unrecognized estimator
type raises `ValueError` naming the type (reproducing the source's
spelling). -/
def EvaluationResults.make (args : EvalArgs) : Except String EvaluationResults := do
  let fitted_model ← unwrapModels args.models
  match fitted_model with
  | .propensity => .ok (EvaluationResults.propensityResults args)
  | .weight => .ok (EvaluationResults.weightResults args)
  | .outcome => do
    let b ← anyBinaryOutcome args.predictions
    if b then .ok (EvaluationResults.binaryOutcomeResults args)
    else .ok (EvaluationResults.continuousOutcomeResults args)
  | .other typeName =>
    .error ("ValueError: Unable to find suitable results object for esimator of type " ++ typeName)

/-! ## Helper lemmas for the scoring loops -/

theorem dictInsert_fresh {β : Type} (d : List (String × β)) (k : String) (v : β)
    (h : k ∉ d.map (fun e => e.1)) : dictInsert d k v = d ++ [(k, v)] := by
  unfold dictInsert
  have : d.any (fun e => e.1 = k) = false := by
    simp only [List.any_eq_false, decide_eq_true_eq]
    intro e he heq
    exact h (by simpa [heq] using List.mem_map_of_mem (fun e => e.1) he)
  simp [this]

/-- What one step of the binary-score loop contributes. -/
def binaryContribution (yTrue : List ℚ) (yPredProba yPred sw : Option (List ℚ))
    (e : String × MetricFn) : Option (String × Val) :=
  (routedInput e.1 yPredProba yPred).map
    (fun p => (e.1, (evalBinaryMetric e.1 e.2 yTrue p sw).1))

def binaryWarnings (yTrue : List ℚ) (yPredProba yPred sw : Option (List ℚ))
    (e : String × MetricFn) : List String :=
  match routedInput e.1 yPredProba yPred with
  | none => []
  | some p => (evalBinaryMetric e.1 e.2 yTrue p sw).2

theorem scoreBinaryLoopGo_charac (yTrue : List ℚ) (yPredProba yPred sw : Option (List ℚ)) :
    ∀ (m : MetricDict) (acc : List (String × Val) × List String),
      (m.map (fun e => e.1)).Nodup →
      (∀ e ∈ m, e.1 ∉ acc.1.map (fun q => q.1)) →
      scoreBinaryLoopGo yTrue yPredProba yPred sw acc m =
        (acc.1 ++ m.filterMap (binaryContribution yTrue yPredProba yPred sw),
         acc.2 ++ m.flatMap (binaryWarnings yTrue yPredProba yPred sw)) := by
  intro m
  induction m with
  | nil => intro acc _ _; simp [scoreBinaryLoopGo]
  | cons e rest ih =>
    intro acc hnd hfresh
    obtain ⟨k, f⟩ := e
    have hndtail : (rest.map (fun e => e.1)).Nodup := by
      simpa using hnd.of_cons
    have hknotrest : k ∉ rest.map (fun e => e.1) := by
      have := hnd
      simp only [List.map_cons, List.nodup_cons] at this
      exact this.1
    simp only [scoreBinaryLoopGo]
    cases hr : routedInput k yPredProba yPred with
    | none =>
      have := ih acc hndtail (fun e he => hfresh e (List.mem_cons_of_mem _ he))
      rw [this]
      simp [binaryContribution, binaryWarnings, hr]
    | some p =>
      dsimp only
      have hkacc : k ∉ acc.1.map (fun q => q.1) :=
        hfresh (k, f) (List.mem_cons_self _ _)
      rw [dictInsert_fresh _ _ _ hkacc]
      have hfresh' : ∀ e ∈ rest,
          e.1 ∉ (acc.1 ++ [(k, (evalBinaryMetric k f yTrue p sw).1)]).map (fun q => q.1) := by
        intro e he
        simp only [List.map_append, List.mem_append, List.map_cons]
        rintro (h1 | h2)
        · exact hfresh e (List.mem_cons_of_mem _ he) h1
        · simp at h2
          exact hknotrest (h2 ▸ List.mem_map_of_mem (fun e => e.1) he)
      rw [ih _ hndtail hfresh']
      simp [binaryContribution, binaryWarnings, hr]

theorem scoreRegressionLoopGo_charac (yTrue yPred : List ℚ) (sw : Option (List ℚ)) :
    ∀ (m : MetricDict) (acc : List (String × Val) × List String),
      (m.map (fun e => e.1)).Nodup →
      (∀ e ∈ m, e.1 ∉ acc.1.map (fun q => q.1)) →
      scoreRegressionLoopGo yTrue yPred sw acc m =
        (acc.1 ++ m.map (fun e => (e.1, (evalRegressionMetric e.1 e.2 yTrue yPred sw).1)),
         acc.2 ++ m.flatMap (fun e => (evalRegressionMetric e.1 e.2 yTrue yPred sw).2)) := by
  intro m
  induction m with
  | nil => intro acc _ _; simp [scoreRegressionLoopGo]
  | cons e rest ih =>
    intro acc hnd hfresh
    obtain ⟨k, f⟩ := e
    have hndtail : (rest.map (fun e => e.1)).Nodup := by
      simpa using hnd.of_cons
    have hknotrest : k ∉ rest.map (fun e => e.1) := by
      have := hnd
      simp only [List.map_cons, List.nodup_cons] at this
      exact this.1
    simp only [scoreRegressionLoopGo]
    have hkacc : k ∉ acc.1.map (fun q => q.1) :=
      hfresh (k, f) (List.mem_cons_self _ _)
    rw [dictInsert_fresh _ _ _ hkacc]
    have hfresh' : ∀ e ∈ rest,
        e.1 ∉ (acc.1 ++ [(k, (evalRegressionMetric k f yTrue yPred sw).1)]).map (fun q => q.1) := by
      intro e he
      simp only [List.map_append, List.mem_append, List.map_cons]
      rintro (h1 | h2)
      · exact hfresh e (List.mem_cons_of_mem _ he) h1
      · simp at h2
        exact hknotrest (h2 ▸ List.mem_map_of_mem (fun e => e.1) he)
    rw [ih _ hndtail hfresh']
    simp

/-! ## Claim theorems: scoring (C2, C3) -/

theorem nodupKeys_entry_unique {β : Type} (m : List (String × β))
    (hnd : (m.map (fun e => e.1)).Nodup) :
    ∀ e ∈ m, ∀ e' ∈ m, e.1 = e'.1 → e = e' := by
  intro e he e' he' hk
  exact List.inj_on_of_nodup_map hnd he he' hk

/-- C2: for every metric set passed to `score_binary_prediction`, each
metric named hinge, brier, roc_curve, roc_auc, pr_curve or avg_precision
is evaluated on the continuous score input (`y_pred_proba`) and every
other metric on the discrete label input (`y_pred`); a metric whose
required input is `None` is omitted from the output without error, and
every metric whose required input was supplied appears in the output
(possibly as NaN). -/
theorem score_binary_prediction_routing (m : MetricDict)
    (hnd : (m.map (fun e => e.1)).Nodup)
    (yTrue : List ℚ) (yPredProba yPred sw : Option (List ℚ)) (b : Bool) :
    (score_binary_prediction yTrue yPredProba yPred sw (some m) b).1.entries =
      m.filterMap (binaryContribution yTrue yPredProba yPred sw)
    ∧ (∀ e ∈ m, (if e.1 ∈ probaMetricNames then yPredProba else yPred) = none →
        ∀ v, (e.1, v) ∉ (score_binary_prediction yTrue yPredProba yPred sw (some m) b).1.entries)
    ∧ (∀ e ∈ m, ∀ p, (if e.1 ∈ probaMetricNames then yPredProba else yPred) = some p →
        (e.1, (evalBinaryMetric e.1 e.2 yTrue p sw).1) ∈
          (score_binary_prediction yTrue yPredProba yPred sw (some m) b).1.entries) := by
  have hmain : (score_binary_prediction yTrue yPredProba yPred sw (some m) b).1.entries =
      m.filterMap (binaryContribution yTrue yPredProba yPred sw) := by
    show (scoreBinaryLoopGo yTrue yPredProba yPred sw ([], []) m).1 = _
    rw [scoreBinaryLoopGo_charac yTrue yPredProba yPred sw m ([], []) hnd (by simp)]
    simp
  refine ⟨hmain, ?_, ?_⟩
  · intro e he hnone v hmem
    rw [hmain] at hmem
    rw [List.mem_filterMap] at hmem
    obtain ⟨e', he', hce⟩ := hmem
    have hkey : e'.1 = e.1 := by
      unfold binaryContribution at hce
      cases hri : routedInput e'.1 yPredProba yPred with
      | none => rw [hri] at hce; simp at hce
      | some p => rw [hri] at hce; simp at hce; exact hce.1
    have : e' = e := nodupKeys_entry_unique m hnd e' he' e he hkey
    subst this
    unfold binaryContribution routedInput at hce
    rw [hnone] at hce
    simp at hce
  · intro e he p hp
    rw [hmain, List.mem_filterMap]
    exact ⟨e, he, by unfold binaryContribution routedInput; rw [hp]; rfl⟩

/-- Witness for `score_binary_prediction_routing` at a concrete metric
set: "m1" (label-routed) with labels absent is omitted; "roc_auc"
(score-routed) with scores present appears. -/
theorem score_binary_prediction_routing_witness :
    ((([("m1", externalMetric "x"), ("roc_auc", externalMetric "y")] : MetricDict).map
        (fun e => e.1)).Nodup)
    ∧ (score_binary_prediction [0, 1] (some [1, 0]) none none
        (some [("m1", externalMetric "x"), ("roc_auc", externalMetric "y")]) true).1.entries =
      [("roc_auc", Val.num 0)] := by
  constructor
  · decide
  · rw [(score_binary_prediction_routing
      [("m1", externalMetric "x"), ("roc_auc", externalMetric "y")]
      (by decide) [0, 1] (some [1, 0]) none none true).1]
    rfl

/-- C3: `score_binary_prediction` and `score_regression_prediction` never
raise when an individual metric fails validation (raises `ValueError`):
the failure is caught, a warning is emitted, the metric's value is
recorded as NaN, and every remaining metric whose required input was
supplied is still evaluated. (Both functions are total by construction:
their result type carries no exception.) -/
theorem score_prediction_catches_metric_failures
    (m mr : MetricDict)
    (hnd : (m.map (fun e => e.1)).Nodup) (hndr : (mr.map (fun e => e.1)).Nodup)
    (yTrue : List ℚ) (yPredProba yPred sw : Option (List ℚ)) (b : Bool)
    (yPredR : List ℚ) :
    (∀ e ∈ m, ∀ p err, routedInput e.1 yPredProba yPred = some p →
      e.2 yTrue p sw = .error err →
      ((e.1, Val.nan) ∈ (score_binary_prediction yTrue yPredProba yPred sw (some m) b).1.entries
        ∧ ("metric " ++ e.1 ++ " could not be evaluated") ∈
            (score_binary_prediction yTrue yPredProba yPred sw (some m) b).2
        ∧ ∀ e' ∈ m, ∀ p', routedInput e'.1 yPredProba yPred = some p' →
            ∃ v, (e'.1, v) ∈ (score_binary_prediction yTrue yPredProba yPred sw (some m) b).1.entries))
    ∧ (∀ e ∈ mr, ∀ err, e.2 yTrue yPredR sw = .error err →
      ((e.1, Val.nan) ∈ (score_regression_prediction yTrue yPredR sw (some mr)).1.entries
        ∧ ("While evaluating " ++ e.1 ++ ": " ++ err) ∈
            (score_regression_prediction yTrue yPredR sw (some mr)).2
        ∧ ∀ e' ∈ mr, ∃ v, (e'.1, v) ∈
            (score_regression_prediction yTrue yPredR sw (some mr)).1.entries)) := by
  constructor
  · intro e he p err hp herr
    have hcharac := scoreBinaryLoopGo_charac yTrue yPredProba yPred sw m ([], []) hnd (by simp)
    have hentries : (score_binary_prediction yTrue yPredProba yPred sw (some m) b).1.entries =
        m.filterMap (binaryContribution yTrue yPredProba yPred sw) := by
      show (scoreBinaryLoopGo yTrue yPredProba yPred sw ([], []) m).1 = _
      rw [hcharac]
      simp
    have hwarn : (score_binary_prediction yTrue yPredProba yPred sw (some m) b).2 =
        m.flatMap (binaryWarnings yTrue yPredProba yPred sw) := by
      show (scoreBinaryLoopGo yTrue yPredProba yPred sw ([], []) m).2 = _
      rw [hcharac]
      simp
    refine ⟨?_, ?_, ?_⟩
    · rw [hentries, List.mem_filterMap]
      refine ⟨e, he, ?_⟩
      unfold binaryContribution
      rw [hp]
      unfold evalBinaryMetric
      simp [herr]
    · rw [hwarn, List.mem_flatMap]
      refine ⟨e, he, ?_⟩
      unfold binaryWarnings
      rw [hp]
      unfold evalBinaryMetric
      simp [herr]
    · intro e' he' p' hp'
      refine ⟨(evalBinaryMetric e'.1 e'.2 yTrue p' sw).1, ?_⟩
      rw [hentries, List.mem_filterMap]
      refine ⟨e', he', ?_⟩
      unfold binaryContribution
      rw [hp']
      rfl
  · intro e he err herr
    have hmrne : mr ≠ [] := by
      intro hc
      rw [hc] at he
      exact List.not_mem_nil e he
    have hform : score_regression_prediction yTrue yPredR sw (some mr) =
        (let r := scoreRegressionLoopGo yTrue yPredR sw ([], []) mr
         ({ entries := r.1, dtype := seriesDtype r.1 }, r.2)) := by
      unfold score_regression_prediction
      cases mr with
      | nil => exact absurd rfl hmrne
      | cons x xs => rfl
    have hcharac := scoreRegressionLoopGo_charac yTrue yPredR sw mr ([], []) hndr (by simp)
    refine ⟨?_, ?_, ?_⟩
    · rw [hform]
      show (e.1, Val.nan) ∈ (scoreRegressionLoopGo yTrue yPredR sw ([], []) mr).1
      rw [hcharac]
      simp only [List.nil_append, List.mem_map]
      refine ⟨e, he, ?_⟩
      unfold evalRegressionMetric
      rw [herr]
    · rw [hform]
      show _ ∈ (scoreRegressionLoopGo yTrue yPredR sw ([], []) mr).2
      rw [hcharac]
      simp only [List.nil_append, List.mem_flatMap]
      refine ⟨e, he, ?_⟩
      unfold evalRegressionMetric
      rw [herr]
      simp
    · intro e' he'
      refine ⟨(evalRegressionMetric e'.1 e'.2 yTrue yPredR sw).1, ?_⟩
      rw [hform]
      show _ ∈ (scoreRegressionLoopGo yTrue yPredR sw ([], []) mr).1
      rw [hcharac]
      simp only [List.nil_append, List.mem_map]
      exact ⟨e', he', rfl⟩

/-- Witness for `score_prediction_catches_metric_failures` at concrete
failing metrics: both scorers record NaN for the failing metric. -/
theorem score_prediction_catches_metric_failures_witness :
    ("bad", Val.nan) ∈
      (score_binary_prediction [0] none (some [1]) none
        (some [("bad", fun _ _ _ => Except.error "boom")]) true).1.entries
    ∧ ("rbad", Val.nan) ∈
      (score_regression_prediction [0] [1] none
        (some [("rbad", fun _ _ _ => Except.error "oops")])).1.entries := by
  have h := score_prediction_catches_metric_failures
    [("bad", fun _ _ _ => Except.error "boom")]
    [("rbad", fun _ _ _ => Except.error "oops")]
    (by decide) (by decide) [0] none (some [1]) none true [1]
  constructor
  · exact (h.1 ("bad", fun _ _ _ => Except.error "boom") (List.Mem.head _) [1] "boom" rfl rfl).1
  · exact (h.2 ("rbad", fun _ _ _ => Except.error "oops") (List.Mem.head _) "oops" rfl).1

/-! ## Claim theorems: type dispatch errors (C9) and the empty-folds
NameError (C10) -/

/-- C9: for every prediction object whose type is not one of the
recognized prediction-bundle types, `score_estimation` raises immediately
with the offending type named and returns no partial result; likewise
`EvaluationResults.make` raises an exception naming the type for a fitted
model that is none of the recognized estimator types. -/
theorem unrecognized_type_is_fatal (typeName : String) (X : CovFrame)
    (a y : List ℚ) (m : Option MetricDict) (args : EvalArgs) :
    score_estimation (SingleFoldPrediction.other typeName) X a y m =
      .error ("ValueError: Invalid type for prediciton: " ++ typeName)
    ∧ (unwrapModels args.models = .ok (EstimatorModel.other typeName) →
        EvaluationResults.make args =
          .error ("ValueError: Unable to find suitable results object for esimator of type "
            ++ typeName)) := by
  constructor
  · rfl
  · intro h
    simp [EvaluationResults.make, h]

/-- Witness for `unrecognized_type_is_fatal` at a fitted model of the
concrete unrecognized type "GradientBooster". -/
theorem unrecognized_type_is_fatal_witness :
    unwrapModels (ModelsArg.single (EstimatorModel.other "GradientBooster")) =
      .ok (EstimatorModel.other "GradientBooster")
    ∧ EvaluationResults.make
        { evaluated_metrics := ScoreResult.table { cols := [], rows := [], idxNames := [] },
          models := ModelsArg.single (EstimatorModel.other "GradientBooster"),
          predictions := [], cv := [], X := [], a := [], y := [] } =
      .error ("ValueError: Unable to find suitable results object for esimator of type "
        ++ "GradientBooster") := by
  refine ⟨rfl, ?_⟩
  exact (unrecognized_type_is_fatal "GradientBooster" [] [] [] none
    { evaluated_metrics := ScoreResult.table { cols := [], rows := [], idxNames := [] },
      models := ModelsArg.single (EstimatorModel.other "GradientBooster"),
      predictions := [], cv := [], X := [], a := [], y := [] }).2 rfl

/-- C10: for every predictions mapping, `score_cv` called with an empty
fold list does not return an empty aggregate: the final type check reads
the loop variable `fold_scores`, which an empty loop never bound, so the
call fails with Python's unbound-variable `NameError` before producing
any result. -/
theorem score_cv_empty_cv_raises (predictions : List (String × List SingleFoldPrediction))
    (X : CovFrame) (a y : List ℚ) (m : Option MetricDict) :
    score_cv predictions X a y [] m =
      .error "NameError: name 'fold_scores' is not defined" := by
  rfl

/-! ## Claim theorem: result-variant selection (C7) -/

theorem anyE_ok_iff {α ε : Type} (f : α → Except ε Bool) (P : α → Prop)
    (hf : ∀ x b', f x = .ok b' → (b' = true ↔ P x)) :
    ∀ (l : List α) (b : Bool), anyE f l = .ok b → (b = true ↔ ∃ x ∈ l, P x) := by
  intro l
  induction l with
  | nil =>
    intro b h
    simp [anyE] at h
    subst h
    simp
  | cons x xs ih =>
    intro b h
    simp only [anyE] at h
    cases hfx : f x with
    | error e => rw [hfx] at h; simp at h
    | ok b0 =>
      rw [hfx] at h
      simp at h
      cases b0 with
      | true =>
        simp at h
        subst h
        simp only [true_iff]
        exact ⟨x, List.mem_cons_self _ _, ((hf x true hfx).mp rfl)⟩
      | false =>
        simp at h
        have hx : ¬ P x := by
          intro hp
          exact Bool.false_ne_true ((hf x false hfx).mpr hp)
        rw [ih b h]
        constructor
        · rintro ⟨y, hy, hpy⟩
          exact ⟨y, List.mem_cons_of_mem _ hy, hpy⟩
        · rintro ⟨y, hy, hpy⟩
          rcases List.mem_cons.mp hy with h1 | h2
          · exact absurd hpy (h1 ▸ hx)
          · exact ⟨y, h2, hpy⟩

theorem anyBinaryOutcome_ok_iff (predictions : List (String × List SingleFoldPrediction))
    (b : Bool) (h : anyBinaryOutcome predictions = .ok b) :
    b = true ↔ ∃ p ∈ predictions, ∃ q ∈ p.2, q.is_binary_outcome = some true := by
  refine anyE_ok_iff _ (fun x => ∃ q ∈ x.2, q.is_binary_outcome = some true) ?_ predictions b h
  intro x b' hx
  cases hempty : x.2 with
  | nil =>
    rw [hempty] at hx
    simp at hx
    subst hx
    simp [hempty]
  | cons q qs =>
    rw [hempty] at hx
    simp only [hempty]
    refine anyE_ok_iff _ (fun y => y.is_binary_outcome = some true) ?_ (q :: qs) b' hx
    intro y b'' hy
    cases hib : y.is_binary_outcome with
    | none => rw [hib] at hy; simp at hy
    | some bb =>
      rw [hib] at hy
      simp at hy
      subst hy
      simp [hib]

/-- C7: for every call to `EvaluationResults.make`, the result variant is
selected by the type of the first fitted model (after unwrapping a
by-phase dict or a by-fold list): a propensity estimator yields the
propensity variant, a weight estimator the weight variant, and an
individual-outcome estimator yields the binary-outcome variant if and
only if at least one fold's predictions in any phase is flagged binary,
and otherwise the continuous-outcome variant. -/
theorem make_selects_variant_by_model_type (args : EvalArgs) (fm : EstimatorModel)
    (h : unwrapModels args.models = .ok fm) :
    (fm = .propensity →
      EvaluationResults.make args = .ok (EvaluationResults.propensityResults args))
    ∧ (fm = .weight →
      EvaluationResults.make args = .ok (EvaluationResults.weightResults args))
    ∧ (fm = .outcome → ∀ b, anyBinaryOutcome args.predictions = .ok b →
        (EvaluationResults.make args = .ok
            (if b then EvaluationResults.binaryOutcomeResults args
             else EvaluationResults.continuousOutcomeResults args)
          ∧ (b = true ↔
              ∃ p ∈ args.predictions, ∃ q ∈ p.2, q.is_binary_outcome = some true))) := by
  refine ⟨?_, ?_, ?_⟩
  · intro hfm
    subst hfm
    simp [EvaluationResults.make, h]
  · intro hfm
    subst hfm
    simp [EvaluationResults.make, h]
  · intro hfm b hb
    subst hfm
    constructor
    · simp only [EvaluationResults.make, h, exceptBind_ok]
      rw [hb]
      cases b <;> simp
    · exact anyBinaryOutcome_ok_iff args.predictions b hb

/-- Witness for `make_selects_variant_by_model_type`: an outcome model
with one binary-flagged fold yields the binary-outcome variant. -/
theorem make_selects_variant_by_model_type_witness :
    unwrapModels (ModelsArg.single EstimatorModel.outcome) = .ok EstimatorModel.outcome
    ∧ anyBinaryOutcome [("train",
        [SingleFoldPrediction.outcome { prediction := [], is_binary_outcome := true }])] =
      .ok true
    ∧ EvaluationResults.make
        { evaluated_metrics := ScoreResult.table { cols := [], rows := [], idxNames := [] },
          models := ModelsArg.single EstimatorModel.outcome,
          predictions := [("train",
            [SingleFoldPrediction.outcome { prediction := [], is_binary_outcome := true }])],
          cv := [], X := [], a := [], y := [] } =
      .ok (EvaluationResults.binaryOutcomeResults
        { evaluated_metrics := ScoreResult.table { cols := [], rows := [], idxNames := [] },
          models := ModelsArg.single EstimatorModel.outcome,
          predictions := [("train",
            [SingleFoldPrediction.outcome { prediction := [], is_binary_outcome := true }])],
          cv := [], X := [], a := [], y := [] }) := by
  refine ⟨rfl, rfl, ?_⟩
  have := ((make_selects_variant_by_model_type
    { evaluated_metrics := ScoreResult.table { cols := [], rows := [], idxNames := [] },
      models := ModelsArg.single EstimatorModel.outcome,
      predictions := [("train",
        [SingleFoldPrediction.outcome { prediction := [], is_binary_outcome := true }])],
      cv := [], X := [], a := [], y := [] }
    EstimatorModel.outcome rfl).2.2 rfl true rfl).1
  simpa using this

/-! ## Claim theorem: weight-prediction metrics (C4) -/

/-- C4: for every weight-prediction bundle,
`WeightEvaluatorPredictions.calculate_metrics(X, a_true, metrics)` returns
a pair whose first component is the binary-prediction score computed with
`a_true` as true labels, `weight_for_being_treated` as the continuous
score and `treatment_assignment_pred` as the discrete prediction,
reshaped into a one-row table, and whose second component is the
covariate-balance table computed with `weight_by_treatment_assignment` as
the weight vector. -/
theorem weight_calculate_metrics_pairs (p : WeightEvaluatorPredictions)
    (X : CovFrame) (aTrue : List ℚ) (metricsToEvaluate : Option MetricDict)
    (cb : DFrame (Option ℝ))
    (h : calculate_covariate_balance X aTrue p.weight_by_treatment_assignment
      (MetricArg.key "abs_smd") = .ok cb) :
    p.calculate_metrics X aTrue metricsToEvaluate =
      .ok (ScoreResult.weightScores
        (seriesToRow (score_binary_prediction aTrue (some p.weight_for_being_treated)
          (some p.treatment_assignment_pred) none metricsToEvaluate true).1)
        cb) := by
  simp [WeightEvaluatorPredictions.calculate_metrics, h]

/-- Witness for `weight_calculate_metrics_pairs` at a concrete bundle
with no covariates (the balance table then has no rows and columns
weighted/unweighted). -/
theorem weight_calculate_metrics_pairs_witness :
    calculate_covariate_balance [] [0, 1] [1, 1] (MetricArg.key "abs_smd") =
      .ok { cols := [[Label.str "weighted"], [Label.str "unweighted"]],
            rows := [], idxNames := [some "covariate"] }
    ∧ WeightEvaluatorPredictions.calculate_metrics
        { weight_by_treatment_assignment := [1, 1],
          weight_for_being_treated := [1, 1],
          treatment_assignment_pred := [0, 1] } [] [0, 1] none =
      .ok (ScoreResult.weightScores
        (seriesToRow (score_binary_prediction [0, 1] (some [1, 1]) (some [0, 1]) none none true).1)
        { cols := [[Label.str "weighted"], [Label.str "unweighted"]],
          rows := [], idxNames := [some "covariate"] }) := by
  refine ⟨?_, ?_⟩
  · rfl
  · exact weight_calculate_metrics_pairs
      { weight_by_treatment_assignment := [1, 1],
        weight_for_being_treated := [1, 1],
        treatment_assignment_pred := [0, 1] } [] [0, 1] none
      { cols := [[Label.str "weighted"], [Label.str "unweighted"]],
        rows := [], idxNames := [some "covariate"] } (by rfl)

/-! ## Claim theorem: two-level covariate balance (C5) -/

theorem insertSorted_head (v : ℚ) (xs : List ℚ) :
    (insertSorted v xs).head? = some v ∨ (insertSorted v xs).head? = xs.head? := by
  cases xs with
  | nil => left; rfl
  | cons x xs =>
    unfold insertSorted
    by_cases h1 : v = x
    · right; simp [h1]
    · by_cases h2 : v < x
      · left; simp [h1, h2]
      · right; simp [h1, h2]

theorem insertSorted_sorted (v : ℚ) :
    ∀ (l : List ℚ), l.Chain' (· < ·) → (insertSorted v l).Chain' (· < ·) := by
  intro l
  induction l with
  | nil => intro _; simp [insertSorted]
  | cons x xs ih =>
    intro hch
    unfold insertSorted
    by_cases h1 : v = x
    · simpa [h1] using hch
    · by_cases h2 : v < x
      · simp only [if_neg h1, if_pos h2]
        exact List.chain'_cons.mpr ⟨h2, hch⟩
      · simp only [if_neg h1, if_neg h2]
        have hxv : x < v := lt_of_le_of_ne (not_lt.mp h2) (Ne.symm h1)
        have hch' := (List.chain'_cons'.mp hch).2
        rw [List.chain'_cons']
        refine ⟨?_, ih hch'⟩
        intro y hy
        rcases insertSorted_head v xs with hh | hh
        · rw [hh] at hy; simp at hy; subst hy; exact hxv
        · rw [hh] at hy
          exact (List.chain'_cons'.mp hch).1 y hy

theorem uniqueSorted_sorted (l : List ℚ) : (uniqueSorted l).Chain' (· < ·) := by
  induction l with
  | nil => simp [uniqueSorted]
  | cons x xs ih => simpa [uniqueSorted] using insertSorted_sorted x _ ih

/-- C5: for every covariate table `X`, weight vector `w`, and treatment
assignment `a` with exactly two distinct treatment levels,
`calculate_covariate_balance` returns a table keyed only under the
maximum treatment level (the other level's table is dropped), with one
row per covariate column of `X` and columns weighted/unweighted. -/
theorem calculate_covariate_balance_two_levels
    (X : CovFrame) (a w : List ℚ) (metric : MetricArg) (out : DFrame (Option ℝ))
    (h2 : (uniqueSorted a).length = 2)
    (h : calculate_covariate_balance X a w metric = .ok out) :
    out.cols = [[Label.str "weighted"], [Label.str "unweighted"]]
    ∧ out.rows.length = X.length
    ∧ ∃ tblMax, perLevelTable X a w ((uniqueSorted a).getLastD 0) metric = .ok tblMax
        ∧ out.rows = tblMax.map (fun e => ([Label.str e.1], [some e.2.1, some e.2.2])) := by
  obtain ⟨t1, t2, htv⟩ : ∃ t1 t2, uniqueSorted a = [t1, t2] := by
    cases hu : uniqueSorted a with
    | nil => rw [hu] at h2; simp at h2
    | cons x rest =>
      cases rest with
      | nil => rw [hu] at h2; simp at h2
      | cons y rest2 =>
        cases rest2 with
        | nil => exact ⟨x, y, rfl⟩
        | cons z r3 => rw [hu] at h2; simp at h2
  have hlt : t1 < t2 := by
    have hs := uniqueSorted_sorted a
    rw [htv] at hs
    exact (List.chain'_cons.mp hs).1
  have hne : t1 ≠ t2 := ne_of_lt hlt
  unfold calculate_covariate_balance at h
  rw [htv] at h
  cases hp1 : perLevelTable X a w t1 metric with
  | error e => simp [mapE, hp1] at h
  | ok tbl1 =>
    cases hp2 : perLevelTable X a w t2 metric with
    | error e => simp [mapE, hp1, hp2] at h
    | ok tbl2 =>
      simp only [mapE, hp1, hp2, exceptBind_ok, List.length_cons, List.length_nil] at h
      norm_num at h
      -- h : out = xsCols (assembleBalanceFrame ...) (Label.rat t2)  (up to symmetry)
      have hlen1 : tbl1.length = X.length := mapE_ok_length _ X tbl1 hp1
      have hlen2 : tbl2.length = X.length := mapE_ok_length _ X tbl2 hp2
      have hout : out = xsCols
          (assembleBalanceFrame (X.map (fun c => c.1)) [(t1, tbl1), (t2, tbl2)])
          (Label.rat t2) := by
        rw [← h]
      have hkey : ∀ (i : Nat) (e : String × ℝ × ℝ), tbl2[i]? = some e →
          ∃ x, X[i]? = some x ∧ e.1 = x.1 := by
        intro i e he
        obtain ⟨x, hx, hfx⟩ := mapE_ok_mem _ X tbl2 hp2 i e he
        refine ⟨x, hx, ?_⟩
        cases hd1 : calculate_distribution_distance_for_single_feature x.2 w a t2 metric with
        | error er => rw [hd1] at hfx; simp at hfx
        | ok wd =>
          cases hd2 : calculate_distribution_distance_for_single_feature x.2
              (List.replicate w.length 1) a t2 metric with
          | error er => rw [hd1, hd2] at hfx; simp at hfx
          | ok ud =>
            rw [hd1, hd2] at hfx
            simp at hfx
            rw [← hfx]
      subst hout
      refine ⟨?_, ?_, ?_⟩
      · simp [xsCols, assembleBalanceFrame, hne]
      · simp [xsCols, assembleBalanceFrame]
      · refine ⟨tbl2, by simpa [htv] using hp2, ?_⟩
        apply List.ext_getElem?
        intro i
        simp only [xsCols, assembleBalanceFrame, List.map_map]
        rw [List.getElem?_map, List.getElem?_map]
        rw [@List.getElem?_enum _ (X.map (fun c => c.1)) i]
        rw [List.getElem?_map]
        by_cases hi : i < X.length
        · have hx : X[i]? = some X[i] := List.getElem?_eq_getElem hi
          have ht1 : tbl1[i]? = some tbl1[i] := List.getElem?_eq_getElem (by omega)
          have ht2 : tbl2[i]? = some tbl2[i] := List.getElem?_eq_getElem (by omega)
          obtain ⟨x2, hx2, hkey2⟩ := hkey i tbl2[i] ht2
          rw [hx] at hx2
          have hxeq : x2 = X[i] := by injection hx2.symm
          rw [hx, ht2]
          simp only [Option.map_some', Function.comp]
          rw [List.flatMap_cons, List.flatMap_cons, List.flatMap_nil]
          rw [ht1, ht2]
          simp [hne, hkey2, hxeq]
        · have hx : X[i]? = none := List.getElem?_eq_none (by omega)
          have ht2 : tbl2[i]? = none := List.getElem?_eq_none (by omega)
          rw [hx, ht2]
          simp

/-- Witness for `calculate_covariate_balance_two_levels` at one covariate,
two treatment levels and a concrete constant distance callable. -/
theorem calculate_covariate_balance_two_levels_witness :
    (uniqueSorted [0, 1]).length = 2
    ∧ calculate_covariate_balance [("c1", [5, 7])] [0, 1] [1, 1]
        (MetricArg.fn (fun _ _ _ _ => 0)) =
      .ok { cols := [[Label.str "weighted"], [Label.str "unweighted"]],
            rows := [([Label.str "c1"], [some 0, some 0])],
            idxNames := [some "covariate"] }
    ∧ (({ cols := [[Label.str "weighted"], [Label.str "unweighted"]],
          rows := [([Label.str "c1"], [some 0, some 0])],
          idxNames := [some "covariate"] } : DFrame (Option ℝ)).cols =
        [[Label.str "weighted"], [Label.str "unweighted"]]
      ∧ ({ cols := [[Label.str "weighted"], [Label.str "unweighted"]],
           rows := [([Label.str "c1"], [some 0, some 0])],
           idxNames := [some "covariate"] } : DFrame (Option ℝ)).rows.length =
          ([("c1", [5, 7])] : CovFrame).length
      ∧ ∃ tblMax, perLevelTable [("c1", [5, 7])] [0, 1] [1, 1]
            ((uniqueSorted [0, 1]).getLastD 0) (MetricArg.fn (fun _ _ _ _ => 0)) =
          .ok tblMax
        ∧ ({ cols := [[Label.str "weighted"], [Label.str "unweighted"]],
             rows := [([Label.str "c1"], [some 0, some 0])],
             idxNames := [some "covariate"] } : DFrame (Option ℝ)).rows =
            tblMax.map (fun e => ([Label.str e.1], [some e.2.1, some e.2.2]))) := by
  refine ⟨by decide, rfl, ?_⟩
  exact calculate_covariate_balance_two_levels [("c1", [5, 7])] [0, 1] [1, 1]
    (MetricArg.fn (fun _ _ _ _ => 0))
    { cols := [[Label.str "weighted"], [Label.str "unweighted"]],
      rows := [([Label.str "c1"], [some 0, some 0])],
      idxNames := [some "covariate"] } (by decide) rfl

/-! ## Claim theorem: distance symmetry across the two levels (C8) -/

theorem mem_insertSorted (u v : ℚ) :
    ∀ (l : List ℚ), v ∈ insertSorted u l ↔ v = u ∨ v ∈ l := by
  intro l
  induction l with
  | nil => simp [insertSorted]
  | cons y ys ih =>
    unfold insertSorted
    by_cases h1 : u = y
    · subst h1
      simp only [eq_self_iff_true, if_true, List.mem_cons]
      tauto
    · by_cases h2 : u < y
      · simp only [if_neg h1, if_pos h2, List.mem_cons]
      · simp only [if_neg h1, if_neg h2, List.mem_cons, ih]
        tauto

theorem mem_uniqueSorted (v : ℚ) : ∀ (l : List ℚ), v ∈ uniqueSorted l ↔ v ∈ l := by
  intro l
  induction l with
  | nil => simp [uniqueSorted]
  | cons x xs ih =>
    show v ∈ insertSorted x (uniqueSorted xs) ↔ _
    rw [mem_insertSorted, ih]
    simp

theorem maskFilter_cons {α : Type} (xv : α) (x' : List α) (m : Bool) (ms : List Bool)
    (b : Bool) :
    maskFilter (xv :: x') (m :: ms) b =
      (if m = b then [xv] else []) ++ maskFilter x' ms b := by
  simp only [maskFilter, List.zip_cons_cons, List.filter_cons]
  cases m <;> cases b <;> simp

theorem maskFilter_two_level {α : Type} (t1 t2 : ℚ) (hne : t1 ≠ t2) (b : Bool) :
    ∀ (a : List ℚ) (x : List α), (∀ v ∈ a, v = t1 ∨ v = t2) →
      maskFilter x (a.map (fun v => decide (v = t2))) b =
        maskFilter x (a.map (fun v => decide (v = t1))) (!b) := by
  intro a
  induction a with
  | nil => intro x _; simp [maskFilter]
  | cons v a' ih =>
    intro x hmem
    cases x with
    | nil => simp [maskFilter]
    | cons xv x' =>
      have htail := fun u hu => hmem u (List.mem_cons_of_mem v hu)
      have hrec := ih x' htail
      simp only [List.map_cons, maskFilter_cons, hrec]
      rcases hmem v (List.mem_cons_self v a') with h | h
      · subst h
        rw [decide_eq_false hne]
        cases b <;> simp
      · subst h
        rw [decide_eq_false (Ne.symm hne)]
        cases b <;> simp

theorem smd_antisymm (x y wx wy : List ℚ) :
    calc_weighted_standardized_mean_differences y x wy wx =
      - calc_weighted_standardized_mean_differences x y wx wy := by
  unfold calc_weighted_standardized_mean_differences
  have h1 : ((wmean y wy - wmean x wx : ℚ) : ℝ) = -((wmean x wx - wmean y wy : ℚ) : ℝ) := by
    push_cast
    ring
  rw [h1, add_comm (pvar y) (pvar x), neg_div]

theorem foldr_max_init_comm (a b : ℚ) :
    ∀ (l : List ℚ), l.foldr max (max a b) = max a (l.foldr max b) := by
  intro l
  induction l with
  | nil => rfl
  | cons c l ih =>
    simp only [List.foldr_cons, ih]
    rw [max_left_comm]

theorem foldr_max_append_comm (j : ℚ) :
    ∀ (l1 l2 : List ℚ), (l1 ++ l2).foldr max j = (l2 ++ l1).foldr max j := by
  have key : ∀ (l1 l2 : List ℚ) (j : ℚ),
      l1.foldr max (l2.foldr max j) = l2.foldr max (l1.foldr max j) := by
    intro l1
    induction l1 with
    | nil => intro l2 j; rfl
    | cons c l1 ih =>
      intro l2 j
      simp only [List.foldr_cons, ih l2 j]
      rw [← foldr_max_init_comm]
  intro l1 l2
  rw [List.foldr_append, List.foldr_append, key]

theorem ks_symm (x y wx wy : List ℚ) :
    calc_weighted_ks2samp y x wy wx = calc_weighted_ks2samp x y wx wy := by
  unfold calc_weighted_ks2samp
  have hfun : (fun t => |wecdf y wy t - wecdf x wx t|) =
      (fun t => |wecdf x wx t - wecdf y wy t|) := by
    funext t
    exact abs_sub_comm _ _
  rw [hfun]
  rw [List.map_append, List.map_append]
  exact foldr_max_append_comm 0 _ _

/-- C8 (amended): for every covariate column, weight vector and treatment
assignment with exactly two levels, the distance computed for one level
(its samples vs. the rest) equals the distance computed for the other
level for the symmetric registry metrics `abs_smd` and `ks`; for the
signed `smd` the two distances are *negatives* of each other (the
standardized mean difference is antisymmetric under swapping the two
samples), not equal. -/
theorem distance_two_level_symmetry (x w a : List ℚ) (t1 t2 : ℚ)
    (htv : uniqueSorted a = [t1, t2]) :
    calculate_distribution_distance_for_single_feature x w a t1 (MetricArg.key "abs_smd") =
      calculate_distribution_distance_for_single_feature x w a t2 (MetricArg.key "abs_smd")
    ∧ calculate_distribution_distance_for_single_feature x w a t1 (MetricArg.key "ks") =
      calculate_distribution_distance_for_single_feature x w a t2 (MetricArg.key "ks")
    ∧ ∃ d, calculate_distribution_distance_for_single_feature x w a t1 (MetricArg.key "smd") =
          .ok d
        ∧ calculate_distribution_distance_for_single_feature x w a t2 (MetricArg.key "smd") =
          .ok (-d) := by
  have hlt : t1 < t2 := by
    have hs := uniqueSorted_sorted a
    rw [htv] at hs
    exact (List.chain'_cons.mp hs).1
  have hne : t1 ≠ t2 := ne_of_lt hlt
  have hmem : ∀ v ∈ a, v = t1 ∨ v = t2 := by
    intro v hv
    have : v ∈ uniqueSorted a := (mem_uniqueSorted v a).mpr hv
    rw [htv] at this
    simpa using this
  have hswx : ∀ (b : Bool), maskFilter x (a.map (fun v => decide (v = t2))) b =
      maskFilter x (a.map (fun v => decide (v = t1))) (!b) :=
    fun b => maskFilter_two_level t1 t2 hne b a x hmem
  have hsww : ∀ (b : Bool), maskFilter w (a.map (fun v => decide (v = t2))) b =
      maskFilter w (a.map (fun v => decide (v = t1))) (!b) :=
    fun b => maskFilter_two_level t1 t2 hne b a w hmem
  refine ⟨?_, ?_, ?_⟩
  · show Except.ok _ = Except.ok _
    rw [hswx true, hswx false, hsww true, hsww false]
    simp only [Bool.not_true, Bool.not_false]
    rw [show |calc_weighted_standardized_mean_differences
        (maskFilter x (a.map (fun v => decide (v = t1))) false)
        (maskFilter x (a.map (fun v => decide (v = t1))) true)
        (maskFilter w (a.map (fun v => decide (v = t1))) false)
        (maskFilter w (a.map (fun v => decide (v = t1))) true)| =
      |calc_weighted_standardized_mean_differences
        (maskFilter x (a.map (fun v => decide (v = t1))) true)
        (maskFilter x (a.map (fun v => decide (v = t1))) false)
        (maskFilter w (a.map (fun v => decide (v = t1))) true)
        (maskFilter w (a.map (fun v => decide (v = t1))) false)| from by
      rw [smd_antisymm, abs_neg]]
  · show Except.ok _ = Except.ok _
    rw [hswx true, hswx false, hsww true, hsww false]
    simp only [Bool.not_true, Bool.not_false]
    rw [show ((calc_weighted_ks2samp
        (maskFilter x (a.map (fun v => decide (v = t1))) false)
        (maskFilter x (a.map (fun v => decide (v = t1))) true)
        (maskFilter w (a.map (fun v => decide (v = t1))) false)
        (maskFilter w (a.map (fun v => decide (v = t1))) true) : ℚ) : ℝ) =
      ((calc_weighted_ks2samp
        (maskFilter x (a.map (fun v => decide (v = t1))) true)
        (maskFilter x (a.map (fun v => decide (v = t1))) false)
        (maskFilter w (a.map (fun v => decide (v = t1))) true)
        (maskFilter w (a.map (fun v => decide (v = t1))) false) : ℚ) : ℝ) from by
      rw [ks_symm]]
  · refine ⟨calc_weighted_standardized_mean_differences
      (maskFilter x (a.map (fun v => decide (v = t1))) true)
      (maskFilter x (a.map (fun v => decide (v = t1))) false)
      (maskFilter w (a.map (fun v => decide (v = t1))) true)
      (maskFilter w (a.map (fun v => decide (v = t1))) false), rfl, ?_⟩
    show Except.ok _ = Except.ok _
    rw [hswx true, hswx false, hsww true, hsww false]
    simp only [Bool.not_true, Bool.not_false]
    rw [smd_antisymm]

/-- Counterexample to C8 as stated: for the *signed* `smd` registry metric
the distance computed for level 1 does not equal the distance computed for
level 0 on a concrete two-level input (they are negatives of each other
and nonzero). -/
theorem two_level_smd_claim_counterexample :
    calculate_distribution_distance_for_single_feature [5, 5, 0, 2] [1, 1, 1, 1] [0, 0, 1, 1] 1
      (MetricArg.key "smd") ≠
    calculate_distribution_distance_for_single_feature [5, 5, 0, 2] [1, 1, 1, 1] [0, 0, 1, 1] 0
      (MetricArg.key "smd") := by
  intro h
  have e1 : calculate_distribution_distance_for_single_feature [5, 5, 0, 2] [1, 1, 1, 1]
      [0, 0, 1, 1] 1 (MetricArg.key "smd") =
      Except.ok (calc_weighted_standardized_mean_differences [0, 2] [5, 5] [1, 1] [1, 1]) := rfl
  have e2 : calculate_distribution_distance_for_single_feature [5, 5, 0, 2] [1, 1, 1, 1]
      [0, 0, 1, 1] 0 (MetricArg.key "smd") =
      Except.ok (calc_weighted_standardized_mean_differences [5, 5] [0, 2] [1, 1] [1, 1]) := rfl
  rw [e1, e2] at h
  have h' : calc_weighted_standardized_mean_differences [0, 2] [5, 5] [1, 1] [1, 1] =
      calc_weighted_standardized_mean_differences [5, 5] [0, 2] [1, 1] [1, 1] := by
    injection h
  have hm1 : (wmean [0, 2] [1, 1] - wmean [5, 5] [1, 1] : ℚ) = -4 := by norm_num [wmean]
  have hm2 : (wmean [5, 5] [1, 1] - wmean [0, 2] [1, 1] : ℚ) = 4 := by norm_num [wmean]
  have hp1 : (pvar [0, 2] + pvar [5, 5] : ℚ) = 1 := by norm_num [pvar]
  have hp2 : (pvar [5, 5] + pvar [0, 2] : ℚ) = 1 := by norm_num [pvar]
  unfold calc_weighted_standardized_mean_differences at h'
  rw [hm1, hm2, hp1, hp2] at h'
  rw [Rat.cast_one, Real.sqrt_one] at h'
  norm_num at h'

/-- Witness for `distance_two_level_symmetry` at a concrete feature,
weights and two-level assignment. -/
theorem distance_two_level_symmetry_witness :
    uniqueSorted [0, 0, 1, 1] = [0, 1]
    ∧ (calculate_distribution_distance_for_single_feature [5, 5, 0, 2] [1, 1, 1, 1] [0, 0, 1, 1]
        0 (MetricArg.key "abs_smd") =
      calculate_distribution_distance_for_single_feature [5, 5, 0, 2] [1, 1, 1, 1] [0, 0, 1, 1]
        1 (MetricArg.key "abs_smd")
    ∧ calculate_distribution_distance_for_single_feature [5, 5, 0, 2] [1, 1, 1, 1] [0, 0, 1, 1]
        0 (MetricArg.key "ks") =
      calculate_distribution_distance_for_single_feature [5, 5, 0, 2] [1, 1, 1, 1] [0, 0, 1, 1]
        1 (MetricArg.key "ks")
    ∧ ∃ d, calculate_distribution_distance_for_single_feature [5, 5, 0, 2] [1, 1, 1, 1]
          [0, 0, 1, 1] 0 (MetricArg.key "smd") = .ok d
        ∧ calculate_distribution_distance_for_single_feature [5, 5, 0, 2] [1, 1, 1, 1]
          [0, 0, 1, 1] 1 (MetricArg.key "smd") = .ok (-d)) :=
  ⟨by decide, distance_two_level_symmetry [5, 5, 0, 2] [1, 1, 1, 1] [0, 0, 1, 1] 0 1 (by decide)⟩

/-! ## Claim theorem: fold-score aggregation (C6) -/

theorem flatMapCongr {α β : Type} (l : List α) (f g : α → List β)
    (h : ∀ x ∈ l, f x = g x) : l.flatMap f = l.flatMap g := by
  induction l with
  | nil => rfl
  | cons x xs ih =>
    simp only [List.flatMap_cons]
    rw [h x (List.mem_cons_self _ _), ih (fun y hy => h y (List.mem_cons_of_mem _ hy))]

theorem indexOf?_nodup_getElem {α : Type} [BEq α] [LawfulBEq α] :
    ∀ (c : List α), c.Nodup → ∀ (i : Nat) (hi : i < c.length),
      c.indexOf? (c.get ⟨i, hi⟩) = some i := by
  intro c
  induction c with
  | nil => intro _ i hi; simp at hi
  | cons x xs ih =>
    intro hnd i hi
    cases i with
    | zero =>
      simp [List.indexOf?_cons]
    | succ n =>
      have hn : n < xs.length := by simpa using hi
      have hx : x ∉ xs := (List.nodup_cons.mp hnd).1
      have hne : ¬ (x == xs.get ⟨n, hn⟩) = true := by
        simp only [beq_iff_eq]
        intro hcontra
        exact hx (hcontra ▸ (xs.get_mem n hn))
      have hget : (x :: xs).get ⟨n + 1, hi⟩ = xs.get ⟨n, hn⟩ := rfl
      rw [hget, List.indexOf?_cons, if_neg hne, ih (List.nodup_cons.mp hnd).2 n hn]
      rfl

theorem realignRow_self {α : Type} (nanV : α) (cs : List (List Label)) (hnd : cs.Nodup)
    (vals : List α) (hlen : vals.length = cs.length) :
    realignRow cs cs nanV vals = vals := by
  apply List.ext_getElem?
  intro i
  unfold realignRow
  rw [List.getElem?_map]
  by_cases hi : i < cs.length
  · rw [List.getElem?_eq_getElem hi]
    simp only [Option.map_some']
    have hgg : cs[i] = cs.get ⟨i, hi⟩ := rfl
    have hIdx : List.indexOf? (cs.get ⟨i, hi⟩) cs = some i :=
      indexOf?_nodup_getElem cs hnd i hi
    rw [hgg, hIdx]
    have hiv : i < vals.length := by omega
    rw [List.getElem?_eq_getElem hiv]
    simp [List.getD_eq_getElem?_getD, List.getElem?_eq_getElem hiv]
  · rw [List.getElem?_eq_none (by omega), List.getElem?_eq_none (by omega)]
    simp

theorem colUnion_const (c : List (List Label)) :
    ∀ (cs : List (List (List Label))), cs ≠ [] → (∀ x ∈ cs, x = c) →
      colUnion cs = c := by
  have hstep : ∀ (rest : List (List (List Label))), (∀ x ∈ rest, x = c) →
      List.foldl (fun acc cs => acc ++ cs.filter (fun col => ¬ col ∈ acc)) c rest = c := by
    intro rest
    induction rest with
    | nil => intro _; rfl
    | cons x xs ih =>
      intro hall
      have hx : x = c := hall x (List.mem_cons_self _ _)
      subst hx
      have hfil : x.filter (fun col => ¬ col ∈ x) = [] := by
        rw [List.filter_eq_nil_iff]
        intro col hcol
        simp [hcol]
      simp only [List.foldl_cons, hfil, List.append_nil]
      exact ih (fun y hy => hall y (List.mem_cons_of_mem _ hy))
  intro cs hne hall
  cases cs with
  | nil => exact absurd rfl hne
  | cons x xs =>
    have hx : x = c := hall x (List.mem_cons_self _ _)
    subst hx
    unfold colUnion
    simp only [List.foldl_cons, List.nil_append]
    have hhead : x.filter (fun col => ¬ col ∈ ([] : List (List Label))) = x := by
      simp
    rw [hhead]
    exact hstep xs (fun y hy => hall y (List.mem_cons_of_mem _ hy))

theorem concatWithKeys_same_cols {α : Type} (name : Option String) (nanV : α)
    (c : List (List Label)) (hnd : c.Nodup) (nms : List (Option String))
    (entries : List (Label × DFrame α)) (hne : entries ≠ [])
    (hcols : ∀ p ∈ entries, p.2.cols = c)
    (hnames : ∀ p ∈ entries, p.2.idxNames = nms)
    (hrows : ∀ p ∈ entries, ∀ r ∈ p.2.rows, r.2.length = c.length) :
    concatWithKeys name nanV entries = .ok
      { cols := c,
        rows := entries.flatMap (fun p => p.2.rows.map (fun r => (p.1 :: r.1, r.2))),
        idxNames := name :: nms } := by
  cases entries with
  | nil => exact absurd rfl hne
  | cons e es =>
    have hall : ∀ x ∈ (e :: es).map (fun p => p.2.cols), x = c := by
      intro x hx
      rw [List.mem_map] at hx
      obtain ⟨p, hp, hpx⟩ := hx
      rw [← hpx]
      exact hcols p hp
    have hu : colUnion ((e :: es).map (fun p => p.2.cols)) = c :=
      colUnion_const c _ (by simp) hall
    show Except.ok _ = Except.ok _
    rw [hu]
    have hrows' : (e :: es).flatMap (fun p =>
        p.2.rows.map (fun r => (p.1 :: r.1, realignRow p.2.cols c nanV r.2))) =
      (e :: es).flatMap (fun p => p.2.rows.map (fun r => (p.1 :: r.1, r.2))) := by
      apply flatMapCongr
      intro p hp
      apply List.map_congr_left
      intro r hr
      rw [hcols p hp, realignRow_self nanV c hnd r.2 (hrows p hp r hr)]
    rw [hrows', hnames e (List.mem_cons_self _ _)]

theorem snd_mem_of_mem_enum {α : Type} {l : List α} {q : Nat × α} (h : q ∈ l.enum) :
    q.2 ∈ l := by
  obtain ⟨i, x⟩ := q
  exact List.getElem?_mem ((List.mk_mem_enum_iff_getElem?).mp h)

theorem combineFoldScores_charac {α : Type} (nanV : α)
    (scores : List (String × List (DFrame α)))
    (c : List (List Label)) (nms : List (Option String))
    (hne : scores ≠ [])
    (hfolds : ∀ p ∈ scores, p.2 ≠ [])
    (hcols : ∀ p ∈ scores, ∀ df ∈ p.2, df.cols = c)
    (hnames : ∀ p ∈ scores, ∀ df ∈ p.2, df.idxNames = nms)
    (hnodup : c.Nodup)
    (hrlen : ∀ p ∈ scores, ∀ df ∈ p.2, ∀ r ∈ df.rows, r.2.length = c.length) :
    combineFoldScores nanV scores = .ok
      { cols := c,
        rows := scores.flatMap (fun p => p.2.enum.flatMap (fun q =>
          q.2.rows.map (fun r => (Label.str p.1 :: Label.nat q.1 :: r.1, r.2)))),
        idxNames := some "phase" :: some "fold" :: nms } := by
  have hinner : ∀ p ∈ scores,
      concatWithKeys (some "fold") nanV (p.2.enum.map (fun q => (Label.nat q.1, q.2))) =
        .ok { cols := c,
              rows := p.2.enum.flatMap (fun q =>
                q.2.rows.map (fun r => (Label.nat q.1 :: r.1, r.2))),
              idxNames := some "fold" :: nms } := by
    intro p hp
    have hres := concatWithKeys_same_cols (some "fold") nanV c hnodup nms
      (p.2.enum.map (fun q => (Label.nat q.1, q.2)))
      (by
        simp only [ne_eq, List.map_eq_nil_iff, List.enum_eq_nil]
        exact hfolds p hp)
      (by
        intro pr hpr
        rw [List.mem_map] at hpr
        obtain ⟨q, hq, hqe⟩ := hpr
        rw [← hqe]
        exact hcols p hp q.2 (snd_mem_of_mem_enum hq))
      (by
        intro pr hpr
        rw [List.mem_map] at hpr
        obtain ⟨q, hq, hqe⟩ := hpr
        rw [← hqe]
        exact hnames p hp q.2 (snd_mem_of_mem_enum hq))
      (by
        intro pr hpr r hr
        rw [List.mem_map] at hpr
        obtain ⟨q, hq, hqe⟩ := hpr
        rw [← hqe] at hr
        exact hrlen p hp q.2 (snd_mem_of_mem_enum hq) r hr)
    rw [hres]
    congr 1
    congr 1
    rw [List.flatMap_map]
  have hmap : mapE (fun p => do
      let cc ← concatWithKeys (some "fold") nanV
        (p.2.enum.map (fun q => (Label.nat q.1, q.2)))
      Except.ok (Label.str p.1, cc)) scores =
      .ok (scores.map (fun p => (Label.str p.1,
        ({ cols := c,
           rows := p.2.enum.flatMap (fun q =>
             q.2.rows.map (fun r => (Label.nat q.1 :: r.1, r.2))),
           idxNames := some "fold" :: nms } : DFrame α)))) := by
    apply mapE_ok_of_forall
    intro p hp
    rw [hinner p hp]
    rfl
  show (do
    let perPhase ← mapE _ scores
    concatWithKeys (some "phase") nanV perPhase) = _
  rw [hmap]
  simp only [exceptBind_ok]
  have houter := concatWithKeys_same_cols (some "phase") nanV c hnodup
    (some "fold" :: nms)
    (scores.map (fun p => (Label.str p.1,
      ({ cols := c,
         rows := p.2.enum.flatMap (fun q =>
           q.2.rows.map (fun r => (Label.nat q.1 :: r.1, r.2))),
         idxNames := some "fold" :: nms } : DFrame α))))
    (by simpa using hne)
    (by
      intro pr hpr
      rw [List.mem_map] at hpr
      obtain ⟨p, hp, hpe⟩ := hpr
      rw [← hpe])
    (by
      intro pr hpr
      rw [List.mem_map] at hpr
      obtain ⟨p, hp, hpe⟩ := hpr
      rw [← hpe])
    (by
      intro pr hpr r hr
      rw [List.mem_map] at hpr
      obtain ⟨p, hp, hpe⟩ := hpr
      rw [← hpe] at hr
      simp only [List.mem_flatMap, List.mem_map] at hr
      obtain ⟨q, hq, rr, hrr, hre⟩ := hr
      rw [← hre]
      exact hrlen p hp q.2 (snd_mem_of_mem_enum hq) rr hrr)
  rw [houter]
  congr 1
  congr 1
  rw [List.flatMap_map]
  apply flatMapCongr
  intro p hp
  rw [List.map_flatMap]
  apply flatMapCongr
  intro q hq
  rw [List.map_map]
  rfl

/-- C6: for every mapping from phase names to non-empty sequences of
per-fold score tables (sharing one column set, as §4.5 requires),
`_combine_fold_scores` is exactly a label-adding row-concatenation: every
row of every input table appears unchanged in the output, labeled with its
phase name and its 0-based fold position; the output row count equals the
sum of the input row counts; and aggregating a single table under a
single phase reproduces that table exactly except for the added
(phase, fold=0) index levels. -/
theorem combine_fold_scores_is_labelled_row_concat
    (scores : List (String × List (DFrame Val)))
    (c : List (List Label)) (nms : List (Option String))
    (hne : scores ≠ [])
    (hfolds : ∀ p ∈ scores, p.2 ≠ [])
    (hcols : ∀ p ∈ scores, ∀ df ∈ p.2, df.cols = c)
    (hnames : ∀ p ∈ scores, ∀ df ∈ p.2, df.idxNames = nms)
    (hnodup : c.Nodup)
    (hrlen : ∀ p ∈ scores, ∀ df ∈ p.2, ∀ r ∈ df.rows, r.2.length = c.length) :
    combine_fold_scores scores = .ok
      { cols := c,
        rows := scores.flatMap (fun p => p.2.enum.flatMap (fun q =>
          q.2.rows.map (fun r => (Label.str p.1 :: Label.nat q.1 :: r.1, r.2)))),
        idxNames := some "phase" :: some "fold" :: nms }
    ∧ (scores.flatMap (fun p => p.2.enum.flatMap (fun q =>
          q.2.rows.map (fun r => (Label.str p.1 :: Label.nat q.1 :: r.1, r.2))))).length =
        (scores.map (fun p => (p.2.map (fun df => df.rows.length)).sum)).sum
    ∧ (∀ t0 : DFrame Val, t0.cols.Nodup →
        (∀ r ∈ t0.rows, r.2.length = t0.cols.length) →
        combine_fold_scores [("train", [t0])] = .ok
          { cols := t0.cols,
            rows := t0.rows.map (fun r => (Label.str "train" :: Label.nat 0 :: r.1, r.2)),
            idxNames := some "phase" :: some "fold" :: t0.idxNames }) := by
  refine ⟨?_, ?_, ?_⟩
  · exact combineFoldScores_charac Val.nan scores c nms hne hfolds hcols hnames hnodup hrlen
  · rw [List.length_flatMap]
    congr 1
    apply List.map_congr_left
    intro p _
    simp only [Function.comp_apply]
    rw [List.length_flatMap]
    simp only [Function.comp_def]
    have : p.2.enum.map (fun q => (q.2.rows.map
        (fun r => (Label.str p.1 :: Label.nat q.1 :: r.1, r.2))).length) =
        p.2.enum.map (fun q => q.2.rows.length) := by
      apply List.map_congr_left
      intro q _
      rw [List.length_map]
    rw [this]
    have h2 : p.2.enum.map (fun q => q.2.rows.length) =
        (p.2.enum.map Prod.snd).map (fun df => df.rows.length) := by
      rw [List.map_map]
      rfl
    rw [h2, List.enum_map_snd]
  · intro t0 hnd0 hlen0
    have hchar := combineFoldScores_charac Val.nan [("train", [t0])] t0.cols t0.idxNames
      (by simp) (by simp) (by simp) (by simp) hnd0
      (by
        intro p hp df hdf r hr
        simp only [List.mem_singleton] at hp
        subst hp
        simp only [List.mem_singleton] at hdf
        subst hdf
        exact hlen0 r hr)
    show combineFoldScores Val.nan [("train", [t0])] = _
    rw [hchar]
    congr 2
    dsimp only
    have henum : (([t0] : List (DFrame Val)).enum) = [(0, t0)] := rfl
    simp only [List.flatMap_cons, List.flatMap_nil, List.append_nil, henum]

/-- Witness for `combine_fold_scores_is_labelled_row_concat` at two phases
with two and one folds of one-row tables. -/
theorem combine_fold_scores_is_labelled_row_concat_witness :
    (([("train",
        [({ cols := [[Label.str "m"]], rows := [([Label.nat 0], [Val.num 1])],
            idxNames := [none] } : DFrame Val),
         { cols := [[Label.str "m"]], rows := [([Label.nat 0], [Val.num 2])],
           idxNames := [none] }]),
       ("valid",
        [({ cols := [[Label.str "m"]], rows := [([Label.nat 0], [Val.num 3])],
            idxNames := [none] } : DFrame Val)])] :
        List (String × List (DFrame Val))) ≠ [])
    ∧ ([[Label.str "m"]] : List (List Label)).Nodup
    ∧ combine_fold_scores
        [("train",
          [{ cols := [[Label.str "m"]], rows := [([Label.nat 0], [Val.num 1])],
             idxNames := [none] },
           { cols := [[Label.str "m"]], rows := [([Label.nat 0], [Val.num 2])],
             idxNames := [none] }]),
         ("valid",
          [{ cols := [[Label.str "m"]], rows := [([Label.nat 0], [Val.num 3])],
             idxNames := [none] }])] =
      .ok { cols := [[Label.str "m"]],
            rows := [([Label.str "train", Label.nat 0, Label.nat 0], [Val.num 1]),
                     ([Label.str "train", Label.nat 1, Label.nat 0], [Val.num 2]),
                     ([Label.str "valid", Label.nat 0, Label.nat 0], [Val.num 3])],
            idxNames := [some "phase", some "fold", none] } := by
  refine ⟨by decide, by decide, ?_⟩
  rw [(combine_fold_scores_is_labelled_row_concat
    [("train",
      [{ cols := [[Label.str "m"]], rows := [([Label.nat 0], [Val.num 1])],
         idxNames := [none] },
       { cols := [[Label.str "m"]], rows := [([Label.nat 0], [Val.num 2])],
         idxNames := [none] }]),
     ("valid",
      [{ cols := [[Label.str "m"]], rows := [([Label.nat 0], [Val.num 3])],
         idxNames := [none] }])]
    [[Label.str "m"]] [none] (by decide) (by decide) (by decide) (by decide)
    (by decide) (by decide)).1]
  rfl

/-! ## Claim theorem: cross-validation scoring (C1) -/

/-- Modelled from the spec (§4.6): the per-(fold, phase) scoring step in
the spec's own terms — "slice covariates/treatment/outcome by that fold's
phase-appropriate index set (train slice uses fold i's train indices,
valid slice uses fold i's validation indices); fetch
`predictions_by_phase[phase][i]`; call the type-dispatched `score_fold`".
Used to state that `score_cv` refines it. -/
noncomputable def scoreFoldPhaseSpec
    (predictions : List (String × List SingleFoldPrediction))
    (X : CovFrame) (a y : List ℚ) (metricsToEvaluate : Option MetricDict)
    (i : Nat) (fold : Fold) (phase : String) : Except String ScoreResult := do
  let idxs := if phase = "train" then fold.1 else fold.2
  let Xf ← ilocF X idxs
  let af ← iloc a idxs
  let yf ← iloc y idxs
  let prediction ← fetchPrediction predictions phase i
  score_estimation prediction Xf af yf metricsToEvaluate

theorem sliceAll_ok_elim (X : CovFrame) (a y : List ℚ) (fold : Fold)
    (d : (CovFrame × List ℚ × List ℚ) × (CovFrame × List ℚ × List ℚ))
    (h : sliceAll X a y fold = .ok d) :
    ilocF X fold.1 = .ok d.1.1 ∧ iloc a fold.1 = .ok d.1.2.1 ∧ iloc y fold.1 = .ok d.1.2.2
    ∧ ilocF X fold.2 = .ok d.2.1 ∧ iloc a fold.2 = .ok d.2.2.1
    ∧ iloc y fold.2 = .ok d.2.2.2 := by
  unfold sliceAll at h
  cases h1 : ilocF X fold.1 with
  | error e => rw [h1] at h; simp at h
  | ok Xtr =>
  rw [h1] at h
  cases h2 : iloc a fold.1 with
  | error e => rw [h2] at h; simp at h
  | ok atr =>
  rw [h2] at h
  cases h3 : iloc y fold.1 with
  | error e => rw [h3] at h; simp at h
  | ok ytr =>
  rw [h3] at h
  cases h4 : ilocF X fold.2 with
  | error e => rw [h4] at h; simp at h
  | ok Xva =>
  rw [h4] at h
  cases h5 : iloc a fold.2 with
  | error e => rw [h5] at h; simp at h
  | ok ava =>
  rw [h5] at h
  cases h6 : iloc y fold.2 with
  | error e => rw [h6] at h; simp at h
  | ok yva =>
  rw [h6] at h
  simp only [exceptBind_ok, Except.ok.injEq] at h
  subst h
  exact ⟨rfl, rfl, rfl, rfl, rfl, rfl⟩

theorem scoreFoldPhase_eq_spec
    (predictions : List (String × List SingleFoldPrediction))
    (X : CovFrame) (a y : List ℚ) (m : Option MetricDict)
    (i : Nat) (fold : Fold) (phase : String)
    (hph : phase = "train" ∨ phase = "valid")
    (d : (CovFrame × List ℚ × List ℚ) × (CovFrame × List ℚ × List ℚ))
    (hs : sliceAll X a y fold = .ok d) :
    scoreFoldPhase predictions X a y m i fold phase =
      scoreFoldPhaseSpec predictions X a y m i fold phase := by
  obtain ⟨h1, h2, h3, h4, h5, h6⟩ := sliceAll_ok_elim X a y fold d hs
  unfold scoreFoldPhase scoreFoldPhaseSpec
  rcases hph with rfl | rfl
  · rw [hs]
    simp [phaseData, h1, h2, h3]
  · rw [hs]
    simp [phaseData, h4, h5, h6]

theorem filterMap_eq_map_of_forall_some {α β : Type} (F : α → Option β) (h : α → β) :
    ∀ (l : List α), (∀ x ∈ l, F x = some (h x)) → l.filterMap F = l.map h := by
  intro l
  induction l with
  | nil => intro _; rfl
  | cons x xs ih =>
    intro hall
    rw [List.filterMap_cons, hall x (List.mem_cons_self _ _), List.map_cons,
      ih (fun y hy => hall y (List.mem_cons_of_mem _ hy))]

theorem map_eq_enum_map_snd {α β : Type} (l : List α) (G : α → β) :
    l.map G = l.enum.map (fun q => G q.2) := by
  conv_lhs => rw [← List.enum_map_snd l]
  rw [List.map_map]
  rfl

theorem enum_map_fst_map {α β : Type} (l : List α) (G : Nat → β) :
    l.enum.map (fun q => G q.1) = (List.range l.length).map G := by
  conv_rhs => rw [← List.enum_map_fst l]
  rw [List.map_map]
  rfl

/-- C1: for every predictions mapping, covariates, treatment, outcome and
fold list, `score_cv` processes each fold index `i` and each phase by
slicing `X`, `a`, `y` with fold `i`'s train indices for the train phase
and its validation indices for the valid phase, fetches
`predictions[phase][i]`, scores it via the type-dispatched
`score_estimation` (all of which `scoreFoldPhaseSpec` spells out in the
spec's terms), and the shape of the returned aggregate — a single
combined table versus a pair of prediction-score and covariate-balance
tables — is determined by the type of the per-fold score result (the
`WeightEvaluatorScores` check on the loop variable), not by external
configuration. -/
theorem score_cv_refines_fold_phase_scoring
    (predictions : List (String × List SingleFoldPrediction))
    (X : CovFrame) (a y : List ℚ) (cv : List Fold) (m : Option MetricDict)
    (f : Nat → String → ScoreResult)
    (hcv : cv ≠ [])
    (hpreds : predictions ≠ [])
    (hphases : ∀ p ∈ predictions, p.1 = "train" ∨ p.1 = "valid")
    (hslice : ∀ fold ∈ cv, ∃ d, sliceAll X a y fold = .ok d)
    (hok : ∀ (i : Nat) (fold : Fold), cv[i]? = some fold →
      ∀ ph ∈ predictions.map (fun p => p.1),
        scoreFoldPhaseSpec predictions X a y m i fold ph = .ok (f i ph)) :
    score_cv predictions X a y cv m =
      (match f (cv.length - 1) ((predictions.map (fun p => p.1)).getLastD "") with
       | .weightScores _ _ => combineWeightScores
           ((predictions.map (fun p => p.1)).map (fun ph =>
             (ph, (List.range cv.length).map (fun i => f i ph))))
       | .table _ => combineTables
           ((predictions.map (fun p => p.1)).map (fun ph =>
             (ph, (List.range cv.length).map (fun i => f i ph))))) := by
  have hfold : ∀ (i : Nat) (fold : Fold), cv[i]? = some fold →
      scoreFold predictions X a y m (predictions.map (fun p => p.1)) i fold =
        .ok ((predictions.map (fun p => p.1)).map (fun ph => (ph, f i ph))) := by
    intro i fold hget
    have hfmem : fold ∈ cv := List.getElem?_mem hget
    obtain ⟨d, hd⟩ := hslice fold hfmem
    unfold scoreFold
    rw [hd]
    simp only [exceptBind_ok]
    apply mapE_ok_of_forall
    intro ph hphm
    have hphtv : ph = "train" ∨ ph = "valid" := by
      rw [List.mem_map] at hphm
      obtain ⟨p, hp, hpe⟩ := hphm
      rw [← hpe]
      exact hphases p hp
    rw [scoreFoldPhase_eq_spec predictions X a y m i fold ph hphtv d hd,
      hok i fold hget ph hphm]
    rfl
  have hmain : mapE (fun q =>
      scoreFold predictions X a y m (predictions.map (fun p => p.1)) q.1 q.2) cv.enum =
      .ok (cv.enum.map (fun q =>
        (predictions.map (fun p => p.1)).map (fun ph => (ph, f q.1 ph)))) := by
    apply mapE_ok_of_forall
    intro q hq
    obtain ⟨i, fold⟩ := q
    exact hfold i fold ((List.mk_mem_enum_iff_getElem?).mp hq)
  have hlenpos : 0 < cv.length := List.length_pos.mpr hcv
  have hil : cv.length - 1 < cv.length := by omega
  have hphlen : 0 < (predictions.map (fun p => p.1)).length := by
    rw [List.length_map]
    exact List.length_pos.mpr hpreds
  have hphl : (predictions.map (fun p => p.1)).length - 1 <
      (predictions.map (fun p => p.1)).length := by omega
  have hget1 : cv[cv.length - 1]? = some (cv.get ⟨cv.length - 1, hil⟩) :=
    List.getElem?_eq_getElem hil
  have hgetph : (predictions.map (fun p => p.1))[(predictions.map (fun p => p.1)).length - 1]? =
      some ((predictions.map (fun p => p.1)).get ⟨_, hphl⟩) :=
    List.getElem?_eq_getElem hphl
  have hphL : (predictions.map (fun p => p.1)).getLastD "" =
      (predictions.map (fun p => p.1)).get ⟨_, hphl⟩ := by
    rw [List.getLastD_eq_getLast?, List.getLast?_eq_getElem?, hgetph]
    rfl
  have hlast : ((cv.enum.map (fun q =>
      (predictions.map (fun p => p.1)).map (fun ph => (ph, f q.1 ph)))).getLast? >>=
        List.getLast?) =
      some ((predictions.map (fun p => p.1)).get ⟨_, hphl⟩,
        f (cv.length - 1) ((predictions.map (fun p => p.1)).get ⟨_, hphl⟩)) := by
    rw [List.getLast?_eq_getElem?]
    rw [List.length_map, List.enum_length]
    rw [List.getElem?_map]
    rw [@List.getElem?_enum _ cv (cv.length - 1)]
    rw [hget1]
    simp only [Option.map_some']
    show ((List.map (fun p => p.1) predictions).map
      (fun ph => (ph, f (cv.length - 1) ph))).getLast? = _
    rw [List.getLast?_eq_getElem?]
    rw [List.length_map]
    rw [List.getElem?_map]
    rw [hgetph]
    rfl
  simp only [score_cv]
  rw [hmain]
  simp only [exceptBind_ok]
  rw [hlast]
  have hscores : (predictions.map (fun p => p.1)).enum.map (fun q =>
      (q.2, (cv.enum.map (fun q' =>
        (predictions.map (fun p => p.1)).map (fun ph => (ph, f q'.1 ph)))).filterMap
          (fun fr => (fr[q.1]?).map (fun e => e.2)))) =
      (predictions.map (fun p => p.1)).map (fun ph =>
        (ph, (List.range cv.length).map (fun i => f i ph))) := by
    rw [map_eq_enum_map_snd (predictions.map (fun p => p.1)) (fun ph =>
      (ph, (List.range cv.length).map (fun i => f i ph)))]
    apply List.map_congr_left
    intro q hq
    obtain ⟨k, ph⟩ := q
    have hqk : (predictions.map (fun p => p.1))[k]? = some ph :=
      (List.mk_mem_enum_iff_getElem?).mp hq
    simp only [Function.comp_apply]
    have hfm : (cv.enum.map (fun q' =>
        (predictions.map (fun p => p.1)).map (fun ph' => (ph', f q'.1 ph')))).filterMap
        (fun fr => (fr[(k, ph).1]?).map (fun e => e.2)) =
        cv.enum.map (fun q' => f q'.1 ph) := by
      rw [List.filterMap_map]
      apply filterMap_eq_map_of_forall_some
      intro q' _
      simp only [Function.comp_apply]
      rw [List.getElem?_map, hqk]
      rfl
    rw [hfm]
    rw [enum_map_fst_map cv (fun i => f i ph)]
  rw [hscores]
  cases hf : f (cv.length - 1) ((predictions.map (fun p => p.1)).getLastD "") with
  | weightScores ps cb =>
    rw [hphL] at hf
    rw [hf]
  | table t =>
    rw [hphL] at hf
    rw [hf]

/-- Witness for `score_cv_refines_fold_phase_scoring` at one fold, one
phase, an outcome prediction and a constant caller-supplied metric. -/
theorem score_cv_refines_fold_phase_scoring_witness :
    (([(([0], [1]) : Fold)] : List Fold) ≠ [])
    ∧ scoreFoldPhaseSpec
        [("train", [SingleFoldPrediction.outcome
          { prediction := [(0, [100]), (1, [200])], is_binary_outcome := false }])]
        [("c", [1, 2])] [0, 1] [3, 4]
        (some [("m1", fun _ _ _ => Except.ok (Val.num 7))]) 0 ([0], [1]) "train" =
      .ok (ScoreResult.table
        { cols := [[Label.str "m1"]], rows := [([Label.nat 0], [Val.num 7])],
          idxNames := [none] })
    ∧ score_cv
        [("train", [SingleFoldPrediction.outcome
          { prediction := [(0, [100]), (1, [200])], is_binary_outcome := false }])]
        [("c", [1, 2])] [0, 1] [3, 4] [([0], [1])]
        (some [("m1", fun _ _ _ => Except.ok (Val.num 7))]) =
      combineTables [("train", [ScoreResult.table
        { cols := [[Label.str "m1"]], rows := [([Label.nat 0], [Val.num 7])],
          idxNames := [none] }])] := by
  refine ⟨by decide, by rfl, ?_⟩
  have happ := score_cv_refines_fold_phase_scoring
    [("train", [SingleFoldPrediction.outcome
      { prediction := [(0, [100]), (1, [200])], is_binary_outcome := false }])]
    [("c", [1, 2])] [0, 1] [3, 4] [([0], [1])]
    (some [("m1", fun _ _ _ => Except.ok (Val.num 7))])
    (fun _ _ => ScoreResult.table
      { cols := [[Label.str "m1"]], rows := [([Label.nat 0], [Val.num 7])],
        idxNames := [none] })
    (by decide) (by decide) (by decide)
    (by
      intro fold hf
      simp only [List.mem_singleton] at hf
      subst hf
      exact ⟨(([("c", [1])], [0], [3]), ([("c", [2])], [1], [4])), rfl⟩)
    (by
      intro i fold hget ph hph
      cases i with
      | zero =>
        simp only [List.getElem?_cons_zero, Option.some.injEq] at hget
        subst hget
        simp only [List.map_cons, List.map_nil, List.mem_singleton] at hph
        subst hph
        rfl
      | succ n =>
        simp at hget)
  exact happ.trans rfl
